import Mathlib

/-!
Verification of the DexTracker Query Expression Engine.

This file gives a shallow embedding of the query engine implemented in
`filter.py` (tokenizer, term parser, recursive-descent expression parser,
tolerant evaluation) and `module_loader.py` (module filter derivation,
the second recursive-descent compiler, and the per-identifier cache),
and proves properties of that embedding.

Modelling conventions:
* Python strings are `String`; substring tests (`a in b`) are `strContains`.
* Python `float` values are modelled as `Rat`.  Every numeric literal the
  engine parses is a plain decimal, which `Rat` represents exactly; none of
  the verified properties depends on binary floating point rounding.
* The external entry store (`dex_adapter`) and the module file loader
  (`_load_module`) are collaborators outside the engine; they are modelled
  as an explicit `Store` parameter of lookup functions.
* The two recursive-descent parsers walk an index `i` monotonically through
  the token list and never look behind `i`; they are embedded in
  suffix-consuming style (functions return the unconsumed suffix instead of
  the new index) with a fuel argument for termination.
-/

namespace DexTracker

/-! ### String helpers -/

/-- `needle` occurs as a contiguous sublist of `hay`. -/
def infixAt : List Char → List Char → Bool
  | needle, [] => needle.isEmpty
  | needle, c :: rest => needle.isPrefixOf (c :: rest) || infixAt needle rest

/-- Python substring membership `needle in hay`. -/
def strContains (hay needle : String) : Bool :=
  infixAt needle.data hay.data

/-- Python `str.lower()` (ASCII case mapping; the glyphs the data uses are
unaffected by case mapping). -/
def strLower (s : String) : String := ⟨s.data.map Char.toLower⟩

/-- Python `str.upper()` (ASCII case mapping). -/
def strUpper (s : String) : String := ⟨s.data.map Char.toUpper⟩

/-- Python `s.startswith(pre)`. -/
def strStarts (s pre : String) : Bool := pre.data.isPrefixOf s.data

/-- Python `s.endswith(suf)`. -/
def strEnds (s suf : String) : Bool := suf.data.reverse.isPrefixOf s.data.reverse

/-- Python slicing `s[n:]`. -/
def strDrop (s : String) (n : Nat) : String := ⟨s.data.drop n⟩

/-- Python slicing `s[:-n]`. -/
def strDropRight (s : String) (n : Nat) : String := ⟨(s.data.reverse.drop n).reverse⟩

/-- Python `str.strip()`: remove leading and trailing whitespace. -/
def pyStrip (s : String) : String :=
  ⟨((s.data.dropWhile Char.isWhitespace).reverse.dropWhile Char.isWhitespace).reverse⟩

/-- Python `str.split()` with no argument: split on whitespace runs,
dropping empty pieces. -/
def splitWsAux : List Char → List Char → List String
  | acc, [] => if acc.isEmpty then [] else [⟨acc.reverse⟩]
  | acc, c :: rest =>
    if c.isWhitespace then
      if acc.isEmpty then splitWsAux [] rest
      else ⟨acc.reverse⟩ :: splitWsAux [] rest
    else splitWsAux (c :: acc) rest

def splitWs (cs : List Char) : List String := splitWsAux [] cs

/-- Split a character list on every occurrence of `sep`
(Python `str.split(sep)`; always returns at least one piece). -/
def splitOnChar (sep : Char) : List Char → List (List Char)
  | [] => [[]]
  | c :: rest =>
    let ps := splitOnChar sep rest
    if c = sep then [] :: ps
    else
      match ps with
      | [] => [[c]]
      | p :: ps2 => (c :: p) :: ps2

def digitsVal (cs : List Char) : Nat :=
  cs.foldl (fun a c => a * 10 + (c.toNat - 48)) 0

def allDigits (cs : List Char) : Bool :=
  !cs.isEmpty && cs.all (·.isDigit)

/-- Model of Python `float(s)` restricted to the plain decimal literals the
query language uses: optional sign, digits, optional fractional part
(`"12"`, `"12.01"`, `".5"`, `"5."`).  Exponents, `inf`/`nan` and digit
underscores are not modelled; the engine never produces them.  The value is
kept exact as a rational. -/
def pyFloat (s : String) : Option Rat :=
  let cs := (pyStrip s).data
  let sgn : Int := match cs with | '-' :: _ => -1 | _ => 1
  let cs := match cs with
    | '+' :: r => r
    | '-' :: r => r
    | r => r
  match splitOnChar '.' cs with
  | [a] => if allDigits a then some (mkRat (sgn * (digitsVal a : Int)) 1) else none
  | [a, b] =>
    if a.all (·.isDigit) && b.all (·.isDigit) && !(a.isEmpty && b.isEmpty) then
      some (mkRat (sgn * ((digitsVal a * 10 ^ b.length + digitsVal b : Nat) : Int)) (10 ^ b.length))
    else none
  | _ => none

/-! ### Data model (`data.Item`, consumed read-only by the engine) -/

/-- One `(game, encounter methods)` availability record. -/
structure GameEntry where
  game : String := ""
  encounter_methods : List String := []

/-- The fixed mark mapping; `data.Item.__init__` fills missing keys with
these defaults, so every item carries the full key set. -/
structure Marks where
  flag : Bool := false
  lock : Bool := false
  source : String := "none.png"
  origin : String := "none.png"
  color : String := "gray"
  released : Bool := true

/-- An entry of the evolution list: Python stores ints/floats (modelled by
the truncated integer the code passes to the store) or strings. -/
inductive EvoRef where
  | numRef (n : Int)
  | strRef (s : String)

/-- One dex entry (`data.Item`), restricted to the attributes the
predicates consume. -/
structure Item where
  name : String := ""
  number : String := ""
  categories : List String := []
  tags : List String := []
  form : String := ""
  marks : Marks := {}
  stats : List (String × Rat) := []
  games : List GameEntry := []
  evolutions : List EvoRef := []
  has_alternate : Bool := false

/-- The external collaborators: `dex_adapter.get_pokemon_info` (lookup by
identifier string), `dex_adapter.get_items_dict` (lookup used by
`filter_item`), and `_load_module` (module filename to its compiled
`filter_function`, `none` when the module cannot be resolved). -/
structure Store where
  byId : String → Option Item := fun _ => none
  itemsDict : String → Option Item := fun _ => none
  modules : String → Option (Item → Bool) := fun _ => none

def emptyStore : Store := {}

/-! ### Predicate library (`filter.py` primitive matchers) -/

def normalize_str (s : String) : String :=
  ⟨(strLower s).data.filter fun c => !(c = '-' || c = ' ')⟩

def normalize_method (m : String) : String :=
  let m_low := strLower m
  if m_low = "grass" || m_low = "tallgrass" then "walk" else m_low

def match_name_filter (item : Item) (value : String) : Bool :=
  strContains (strLower item.name) value

def match_number_filter (item : Item) (value : String) : Bool :=
  item.number == value

def match_number_str_filter (item : Item) (value : String) : Bool :=
  item.number == value

def match_category_filter (item : Item) (value : String) : Bool :=
  item.categories.any fun cat => strContains (strLower cat) value

def match_tag_filter (item : Item) (value : String) : Bool :=
  item.tags.any fun tag => strContains (strLower tag) value

def match_form_filter (item : Item) (value : Option String) : Bool :=
  match value with
  | none => strContains item.number "."
  | some v =>
    let lower_val := strLower v
    if lower_val = "variant" then strContains item.number "."
    else if lower_val = "base" then !(strContains item.number ".") && item.has_alternate
    else if lower_val = "all" || lower_val = "any" then item.has_alternate
    else if lower_val = "none" then !item.has_alternate
    else if lower_val = "gender" then strContains item.form "♂" || strContains item.form "♀"
    else if lower_val = "male" then
      strContains item.form "♂" ||
        (strContains (strLower item.form) "male" && !(strContains (strLower item.form) "female"))
    else if lower_val = "female" then
      strContains item.form "♀" || strContains (strLower item.form) "female"
    else strContains (strLower item.form) lower_val

/-- Python `str` of a boolean, as it appears inside `match_mark_filter`. -/
def pyStrOfBool (b : Bool) : String := if b then "True" else "False"

/-- `item.marks.values()` in the dict insertion order fixed by
`data.Item.__init__`'s defaults. -/
def marksValues (m : Marks) : List String :=
  [pyStrOfBool m.flag, pyStrOfBool m.lock, m.source, m.origin, m.color, pyStrOfBool m.released]

def match_mark_filter (item : Item) (value : Option String) : Bool :=
  match value with
  | none => item.marks.flag || item.marks.lock
  | some v => (marksValues item.marks).any fun s => strContains (strLower s) v

def match_color_filter (item : Item) (value : Option String) : Bool :=
  match value with
  | none => !((strLower item.marks.color) == "gray")
  | some v => (strLower item.marks.color) == v

def statGet (item : Item) (k : String) : Rat :=
  match item.stats.lookup k with
  | some v => v
  | none => 0

def match_stat_filter (item : Item) (criteria : String × String × Rat) : Bool :=
  let (stat_name, op, target_value) := criteria
  let stat_value :=
    if stat_name = "total" then
      (["atk", "def", "spd", "spatk", "spdef", "hp"].map (statGet item)).sum
    else statGet item stat_name
  if op = ">" then decide (stat_value > target_value)
  else if op = ">=" then decide (stat_value ≥ target_value)
  else if op = "<" then decide (stat_value < target_value)
  else if op = "<=" then decide (stat_value ≤ target_value)
  else if op = "=" then stat_value == target_value
  else false   -- Python raises ValueError; unreachable, the term parser only emits the five ops

def match_in_filter (item : Item) (game_method : String × Option String) : Bool :=
  let (game_filter, method_filter) := game_method
  let game_norm := normalize_str game_filter
  -- `if method_filter` in Python is false both for None and for ""
  let method_norm : Option String :=
    match method_filter with
    | none => none
    | some m => if m = "" then none else some (normalize_method m)
  item.games.any fun g =>
    normalize_str g.game == game_norm &&
      (match method_norm with
       | none => true
       | some mn => g.encounter_methods.any fun m => normalize_method m == mn)

def match_method_filter (item : Item) (method_value : String) : Bool :=
  let method_norm := normalize_method method_value
  item.games.any fun g =>
    g.encounter_methods.any fun m => normalize_method m == method_norm

def match_source_filter (item : Item) (source_value : String) : Bool :=
  let source_norm := normalize_str source_value
  let method_norm := normalize_method source_value
  item.games.any fun g =>
    normalize_str g.game == source_norm ||
      g.encounter_methods.any fun m => normalize_method m == method_norm

def strOfEvoRef : EvoRef → String
  | .numRef n => toString n
  | .strRef s => s

def match_evol_filter (env : Store) (item : Item) (evol_sub : String) : Bool :=
  let sub := strLower evol_sub
  item.evolutions.any fun evo_ref =>
    let evo_item : Option Item :=
      match evo_ref with
      | .numRef n => env.byId (toString n)
      | .strRef s => if (pyFloat s).isSome then env.byId s else none
    match evo_item with
    | some e => strContains (strLower e.name) sub
    | none => strContains (strLower (strOfEvoRef evo_ref)) sub

def match_number_range_filter (item : Item) (criteria : Rat × Rat × Bool) : Bool :=
  let (start, stop, include_forms) := criteria
  match pyFloat item.number with
  | none => false
  | some num =>
    if start ≤ num ∧ num ≤ stop then
      if !include_forms && strContains item.number "." then false else true
    else false

def match_module_filter (item : Item) (func : Option (Item → Bool)) : Bool :=
  match func with
  | none => true
  | some f => f item

/-! ### Tokenizer (`filter.tokenize`)

The Python tokenizer applies, in order: pad each parenthesis with spaces,
pad each `!` with spaces, pad each case-insensitive word-delimited
occurrence of `OR`/`NOT`/`XOR` with spaces (regex `\b(OR|NOT|XOR)\b`,
keeping the original spelling), pad each `||` with spaces, then split on
whitespace.  Regex word characters are modelled as ASCII alphanumerics and
underscore. -/

def padParen (c : Char) : List Char :=
  if c = '(' || c = ')' then [' ', c, ' '] else [c]

def padBang (c : Char) : List Char :=
  if c = '!' then [' ', '!', ' '] else [c]

def isWordChar (c : Char) : Bool := c.isAlphanum || c = '_'

/-- True when the position after a candidate word is a word boundary. -/
def boundaryAfter : List Char → Bool
  | [] => true
  | c :: _ => !isWordChar c

/-- If `cs` starts (case-insensitively) with `OR`, `NOT` or `XOR` followed
by a word boundary, the length of that word; re alternation order is
`OR`, `NOT`, `XOR`, but the three cannot match at the same position. -/
def opWordLen (cs : List Char) : Option Nat :=
  if (cs.take 2).map Char.toUpper = ['O', 'R'] && boundaryAfter (cs.drop 2) then some 2
  else if (cs.take 3).map Char.toUpper = ['N', 'O', 'T'] && boundaryAfter (cs.drop 3) then some 3
  else if (cs.take 3).map Char.toUpper = ['X', 'O', 'R'] && boundaryAfter (cs.drop 3) then some 3
  else none

/-- Left-to-right scan implementing
`re.sub(r"\b(OR|NOT|XOR)\b", r" \1 ", s, flags=re.IGNORECASE)`.
`prevW` records whether the previous character of the original string is a
word character (giving the left boundary test); a match of length 2 or 3 is
surrounded by spaces, keeping its original spelling, and scanning resumes
after it. -/
def spaceOps : Bool → List Char → List Char
  | _, [] => []
  | true, c :: rest => c :: spaceOps (isWordChar c) rest
  | false, [c] =>
    match opWordLen [c] with
    | some _ => [c]                  -- unreachable: a match needs at least 2 chars
    | none => c :: spaceOps (isWordChar c) []
  | false, [c, c2] =>
    match opWordLen [c, c2] with
    | some n => if n = 2 then ' ' :: c :: c2 :: ' ' :: spaceOps true [] else [c, c2]
    | none => c :: spaceOps (isWordChar c) [c2]
  | false, c :: c2 :: c3 :: rest3 =>
    match opWordLen (c :: c2 :: c3 :: rest3) with
    | some n =>
      if n = 2 then ' ' :: c :: c2 :: ' ' :: spaceOps true (c3 :: rest3)
      else ' ' :: c :: c2 :: c3 :: ' ' :: spaceOps true rest3
    | none => c :: spaceOps (isWordChar c) (c2 :: c3 :: rest3)
  termination_by structural prevW cs => cs

/-- `str.replace("||", " || ")`: left-to-right, non-overlapping. -/
def padPipes : List Char → List Char
  | '|' :: '|' :: rest => ' ' :: '|' :: '|' :: ' ' :: padPipes rest
  | c :: rest => c :: padPipes rest
  | [] => []

def tokenize (s : String) : List String :=
  let cs1 := (s.data.map padParen).flatten
  let cs2 := (cs1.map padBang).flatten
  let cs3 := spaceOps false cs2
  let cs4 := padPipes cs3
  splitWs cs4

/-! ### Term parser (`filter._parse_filter_term`) -/

/-- The classified `(filter kind, argument)` pair produced for one token. -/
inductive FilterTerm where
  | name (v : String)
  | number (v : String)
  | number_str (v : String)
  | number_range (a b : Rat) (include_forms : Bool)
  | category (v : String)
  | tag (v : String)
  | form (v : Option String)
  | mark (v : Option String)
  | color (v : Option String)
  | stat (sname : String) (op : String) (v : Rat)
  | inG (game : String) (method : Option String)
  | methodT (v : String)
  | sourceT (v : String)
  | evol (v : String)
  | moduleT (func : Option (Item → Bool))

/-- Full match of the regex `^\d+(\.\d+)?$` used by the `num:` branch. -/
def numRe (v : String) : Bool :=
  match splitOnChar '.' v.data with
  | [a] => allDigits a
  | [a, b] => allDigits a && allDigits b
  | _ => false

/-- First comparison operator (in the fixed order) occurring as a substring
of a `stat:` expression. -/
def findOp (stat_expr : String) : Option String :=
  ["<=", ">=", "<", ">", "="].find? fun o => strContains stat_expr o

/-- Split at the first occurrence of `sep` (Python `str.split(sep, 1)`);
`none` when `sep` does not occur. -/
def splitFirstAux (acc sep : List Char) : List Char → Option (List Char × List Char)
  | [] => none
  | c :: rest =>
    if sep.isPrefixOf (c :: rest) then some (acc.reverse, (c :: rest).drop sep.length)
    else splitFirstAux (c :: acc) sep rest

/-- `filter._parse_filter_term`.  Fallible branches (`float` conversions,
tuple unpacking, a missing stat operator) surface on the error channel,
exactly the exceptions the Python propagates to the expression parser. -/
def parse_filter_term (env : Store) (term : String) : Except String FilterTerm :=
  let low := pyStrip (strLower term)
  if strStarts low "@" then .ok (.category (pyStrip (strDrop term 1)))
  else if strStarts term "#" then
    let token := pyStrip (strDrop term 1)
    let include_forms := strEnds token "f"
    let token := if strEnds token "f" then strDropRight token 1 else token
    if strContains token "-" then
      match splitOnChar '-' token.data with
      | [a, b] =>
        match pyFloat ⟨a⟩, pyFloat ⟨b⟩ with
        | some x, some y => .ok (.number_range x y include_forms)
        | _, _ => .error "could not convert string to float"
      | _ => .error "range endpoints do not unpack"
    else
      match pyFloat token with
      | some x => .ok (.number_range x x include_forms)
      | none => .error "could not convert string to float"
  else if strStarts low "in:" then
    match splitOnChar ':' (strDrop term 3).data with
    | [] => .error "unreachable: split is never empty"
    | g :: ms =>
      .ok (.inG (pyStrip ⟨g⟩)
        (match ms with | [] => none | m :: _ => some (pyStrip ⟨m⟩)))
  else if strStarts low "method:" then .ok (.methodT (pyStrip (strDrop term 7)))
  else if strStarts low "source:" then .ok (.sourceT (pyStrip (strDrop term 7)))
  else if strStarts term "+" then .ok (.evol (pyStrip (strDrop term 1)))
  else if strStarts low "module:" then
    .ok (.moduleT (env.modules (pyStrip (strDrop term 7))))
  else if strStarts low "num:" then
    let value := pyStrip (strDrop term 4)
    if numRe value then .ok (.number value) else .ok (.number_str value)
  else if strStarts low "name:" then .ok (.name (strDrop low 5))
  else if strStarts low "cat:" then .ok (.category (strDrop low 4))
  else if strStarts low "tag:" then .ok (.tag (strDrop low 4))
  else if strStarts low "form:" then
    let v := pyStrip (strDrop term 5)
    .ok (.form (if v = "" then none else some v))
  else if strStarts low "mark:" then .ok (.mark (some (strDrop low 5)))
  else if low = "mark" then .ok (.mark none)
  else if strStarts low "color:" then .ok (.color (some (strDrop low 6)))
  else if low = "color" then .ok (.color none)
  else if strStarts low "stat:" then
    let stat_expr := strDrop low 5
    match findOp stat_expr with
    | none => .error "stat filter missing operator"
    | some op =>
      match splitFirstAux [] op.data stat_expr.data with
      | none => .error "unreachable: operator is a substring"
      | some (a, b) =>
        let stat_name := pyStrip ⟨a⟩
        let val := pyStrip ⟨b⟩
        let stat_name :=
          if stat_name = "sat" then "spatk"
          else if stat_name = "sdf" then "spdef" else stat_name
        match pyFloat val with
        | some x => .ok (.stat stat_name op x)
        | none => .error "could not convert string to float"
  else .ok (.name low)

/-- The predicate dispatch table of `filter._parse_primary`. -/
def term_pred (env : Store) (ft : FilterTerm) (item : Item) : Bool :=
  match ft with
  | .name v => match_name_filter item v
  | .number v => match_number_filter item v
  | .number_str v => match_number_str_filter item v
  | .number_range a b f => match_number_range_filter item (a, b, f)
  | .category v => match_category_filter item v
  | .tag v => match_tag_filter item v
  | .form v => match_form_filter item v
  | .mark v => match_mark_filter item v
  | .color v => match_color_filter item v
  | .stat n op v => match_stat_filter item (n, op, v)
  | .inG g m => match_in_filter item (g, m)
  | .methodT v => match_method_filter item v
  | .sourceT v => match_source_filter item v
  | .evol v => match_evol_filter env item v
  | .moduleT f => match_module_filter item f

/-! ### Expression parser (`filter._parse_or` … `_parse_primary`)

The Python code advances an index `i` monotonically and never reads before
it; the embedding passes the unconsumed suffix instead, with a fuel
argument (decremented at each call) for termination.  The `while` loops
become the `_loop` functions, carrying the accumulated predicate. -/

abbrev Pred := Item → Bool

/-- A token starting a negation in `_parse_not`. -/
def isNeg (t : String) : Bool := t = "!" || strUpper t = "NOT"

mutual

def parse_or (env : Store) : Nat → List String → Except String (Pred × List String)
  | 0, _ => .error "out of fuel"
  | fuel + 1, toks => do
    let (l, rest) ← parse_xor env fuel toks
    parse_or_loop env fuel l rest
termination_by structural fuel toks => fuel

def parse_or_loop (env : Store) : Nat → Pred → List String →
    Except String (Pred × List String)
  | 0, _, _ => .error "out of fuel"
  | fuel + 1, l, t :: rest =>
    if strUpper t = "OR" || strUpper t = "||" then do
      let (r, rest2) ← parse_xor env fuel rest
      parse_or_loop env fuel (fun itm => l itm || r itm) rest2
    else .ok (l, t :: rest)
  | _ + 1, l, [] => .ok (l, [])
termination_by structural fuel l toks => fuel

def parse_xor (env : Store) : Nat → List String → Except String (Pred × List String)
  | 0, _ => .error "out of fuel"
  | fuel + 1, toks => do
    let (l, rest) ← parse_and env fuel toks
    parse_xor_loop env fuel l rest
termination_by structural fuel toks => fuel

def parse_xor_loop (env : Store) : Nat → Pred → List String →
    Except String (Pred × List String)
  | 0, _, _ => .error "out of fuel"
  | fuel + 1, l, t :: rest =>
    if strUpper t = "XOR" then do
      let (r, rest2) ← parse_and env fuel rest
      parse_xor_loop env fuel (fun itm => (l itm).xor (r itm)) rest2
    else .ok (l, t :: rest)
  | _ + 1, l, [] => .ok (l, [])
termination_by structural fuel l toks => fuel

def parse_and (env : Store) : Nat → List String → Except String (Pred × List String)
  | 0, _ => .error "out of fuel"
  | fuel + 1, toks => do
    let (l, rest) ← parse_not env fuel toks
    parse_and_loop env fuel l rest
termination_by structural fuel toks => fuel

/-- The implicit-AND loop: it keeps consuming as long as the next token is
not `)`/`OR`/`||`/`XOR` (a literal, case-sensitive comparison in the
source), silently skipping explicit `AND`/`&&` tokens (case-insensitive). -/
def parse_and_loop (env : Store) : Nat → Pred → List String →
    Except String (Pred × List String)
  | 0, _, _ => .error "out of fuel"
  | fuel + 1, l, t :: rest =>
    if t = ")" || t = "OR" || t = "||" || t = "XOR" then .ok (l, t :: rest)
    else if strUpper t = "AND" || strUpper t = "&&" then
      parse_and_loop env fuel l rest
    else do
      let (r, rest2) ← parse_not env fuel (t :: rest)
      parse_and_loop env fuel (fun itm => l itm && r itm) rest2
  | _ + 1, l, [] => .ok (l, [])
termination_by structural fuel l toks => fuel

/-- `filter._parse_not`: the `while` loop consumes the whole run of
consecutive `!`/`NOT` tokens, then a single negation is applied to the
recursively parsed operand — the count of negations is not used. -/
def parse_not (env : Store) : Nat → List String → Except String (Pred × List String)
  | 0, _ => .error "out of fuel"
  | fuel + 1, t :: rest =>
    if isNeg t then do
      let (op, rest2) ← parse_not env fuel ((t :: rest).dropWhile isNeg)
      .ok ((fun itm => !(op itm)), rest2)
    else parse_primary env fuel (t :: rest)
  | fuel + 1, [] => parse_primary env fuel []
termination_by structural fuel toks => fuel

def parse_primary (env : Store) : Nat → List String → Except String (Pred × List String)
  | 0, _ => .error "out of fuel"
  | _ + 1, [] => .error "Unexpected end of expression"
  | fuel + 1, t :: rest =>
    if t = "(" then do
      let (expr, rest2) ← parse_or env fuel rest
      match rest2 with
      | ")" :: rest3 => .ok (expr, rest3)
      | _ => .error "Expected closing parenthesis"
    else do
      let ft ← parse_filter_term env t
      .ok ((fun itm => term_pred env ft itm), rest)
termination_by structural fuel toks => fuel

end

/-- `filter._parse_expression`: parse from the start and require every
token to be consumed. -/
def parse_expression (env : Store) (tokens : List String) : Except String Pred := do
  let (expr, rest) ← parse_or env (10 * (tokens.length + 1)) tokens
  match rest with
  | [] => .ok expr
  | _ => .error "Unexpected token(s)"

/-! ### Evaluation helpers (`filter._compile`, `filter_items`, `filter_item`) -/

def compileQ (env : Store) (filter_string : String) : Except String Pred :=
  parse_expression env (tokenize filter_string)

/-- `filter._safe_compile`: a compiled matcher, or `none` when the
expression is incomplete/invalid (every failure is swallowed). -/
def safe_compile (env : Store) (filter_string : String) : Option Pred :=
  match compileQ env filter_string with
  | .ok p => some p
  | .error _ => none

/-- `filter.filter_items`. -/
def filter_items (env : Store) (items : List Item) (filter_string : String) : List Item :=
  let fs := pyStrip filter_string
  if fs = "" then items
  else if strStarts (strLower fs) "module:" then
    match env.modules (pyStrip (strDrop fs 7)) with
    | none => items
    | some compiled_filter => items.filter compiled_filter
  else
    match safe_compile env fs with
    | none => items
    | some matcher => items.filter matcher

/-- `filter.filter_item` (the legacy dict wrapper, the `matches` single-item
check).  The `try`/`except` around `matcher(item)` cannot fire in the
embedding because predicates are total. -/
def filter_item (env : Store) (item_dict : List (String × String))
    (filter_string : String) : Bool :=
  let key := (item_dict.lookup "key").getD ""
  match env.itemsDict key with
  | none => false
  | some item =>
    match safe_compile env filter_string with
    | none => false
    | some matcher => matcher item

/-! ### Module filter derivation (`module_loader.build_module_filter_string`)

The module rule document is an arbitrary JSON object of which the builder
reads a fixed set of keys; those keys are modelled as structures whose
fields default to the values `dict.get` supplies when the key is absent.
Python dicts iterate in insertion order, so the mappings become
association lists. -/

def REGION_RANGES : List (String × Nat × Nat) :=
  [("Kanto", 1, 151), ("Johto", 152, 251), ("Hoenn", 252, 386),
   ("Sinnoh", 387, 493), ("Unova", 494, 649), ("Kalos", 650, 721),
   ("Alola", 722, 807), ("Unknown", 808, 809), ("Galar", 810, 898),
   ("Hisui", 899, 905), ("Paldea", 906, 1025)]

structure FormsDoc where
  by_species_name : List (String × Bool) := []
  by_form_name : List (String × Bool) := []

structure HcvDoc where
  by_form_name : List (String × Bool) := []
  by_species_name : List (String × Bool) := []
  special_handling : List (String × Bool) := []

structure HivDoc where
  battle_forms : FormsDoc := {}
  item_forms : FormsDoc := {}
  special_handling : List (String × Bool) := []

structure ModDoc where
  filter_constraints : String := ""
  regions : List (String × Bool) := []
  home_compatible_variants : HcvDoc := {}
  home_incompatible_variants : HivDoc := {}

/-- The fixed special-case table of `home_compatible_variants`;
an unrecognized key is passed through verbatim (lowercased). -/
def hcvSpecialToken (key : String) : String :=
  let kl := strLower key
  if kl = "gender_cosmetic" then "form:♀"
  else if kl = "gender_forms" then "form:female"
  else if kl = "alcremie_sweets" then "#869.01-869.06f"
  else if kl = "alcremie_full" then "#869.07-869.62f"
  else if kl = "zygarde" then "(zygarde AND form:variant)"
  else if kl = "zygarde_power_construct" then "(zygarde AND form:construct)"
  else if kl = "minior_core" then "(minior AND NOT form:meteor AND form:variant)"
  else if kl = "pikachu_hat" then "(pikachu AND form:cap)"
  else kl

/-- The fixed special-case table of `home_incompatible_variants`
(`fusion` contributes six tokens). -/
def hivSpecialTokens (key : String) : List String :=
  let kl := strLower key
  if kl = "fusion" then
    ["#646.01f", "#646.02f", "#800.01f", "#800.02f", "#898.01f", "#898.02f"]
  else if kl = "pikachu_cosplay" then ["#25.01-25.06f"]
  else if kl = "lgpe_partner" then ["#25.15", "#133.01"]
  else if kl = "floette_eternal" then ["#670.05f"]
  else if kl = "minior_meteor" then ["(form:meteor AND form:variant)"]
  else if kl = "therian" then ["form:therian"]
  else [kl]

/-- The `(( s1 OR s2 … ) AND form:variant)` grouping emitted for a
non-empty excluded-species list. -/
def speciesGroup (species : List String) : List String :=
  if species.isEmpty then []
  else ["((" ++ String.intercalate " OR " species ++ ") AND form:variant)"]

/-- The exclusion tokens collected by `build_module_filter_string`, in the
order the Python appends them. -/
def moduleTokens (mod : ModDoc) : List String :=
  let fc := pyStrip mod.filter_constraints
  let t1 : List String := if fc ≠ "" then ["(" ++ fc ++ ")"] else []
  let t2 := mod.regions.filterMap fun rg =>
    if !rg.2 then
      match REGION_RANGES.lookup rg.1 with
      | some (a, b) => some ("#" ++ toString a ++ "-" ++ toString b ++ "f")
      | none => none
    else none
  let hcv := mod.home_compatible_variants
  let t3 := hcv.by_form_name.filterMap fun p =>
    if !p.2 then some ("form:" ++ strLower p.1) else none
  let species := hcv.by_species_name.filterMap fun p =>
    if !p.2 then some (strLower p.1) else none
  let t4 := speciesGroup species
  let t5 := hcv.special_handling.filterMap fun p =>
    if !p.2 then some (hcvSpecialToken p.1) else none
  let hiv := mod.home_incompatible_variants
  let bs := hiv.battle_forms.by_species_name.filterMap fun p =>
    if !p.2 then some (strLower p.1) else none
  let t6 := speciesGroup bs
  let t7 := hiv.battle_forms.by_form_name.filterMap fun p =>
    if !p.2 then some ("form:" ++ strLower p.1) else none
  let ispec := hiv.item_forms.by_species_name.filterMap fun p =>
    if !p.2 then some (strLower p.1) else none
  let t8 := speciesGroup ispec
  let t9 := hiv.item_forms.by_form_name.filterMap fun p =>
    if !p.2 then some ("form:" ++ strLower p.1) else none
  let t10 := (hiv.special_handling.map fun p =>
    if !p.2 then hivSpecialTokens p.1 else []).flatten
  t1 ++ t2 ++ t3 ++ t4 ++ t5 ++ t6 ++ t7 ++ t8 ++ t9 ++ t10

/-- `module_loader.build_module_filter_string`. -/
def build_module_filter_string (mod : ModDoc) : String :=
  let tokens := moduleTokens mod
  if !tokens.isEmpty then "NOT (" ++ String.intercalate " OR " tokens ++ ")"
  else ""

/-! ### The second compiler (`module_loader.code_parse_*`)

`module_loader` re-implements the same recursive descent, but builds a
Python source string (`match_x_filter(item, repr(value))` combined with
`and`/`or`/`not`/`^`) that `compile_module_filter` passes to `exec`; the
embedding produces the denotation of that generated code directly.
Structural differences from `filter.py`'s parser: `code_parse_not` counts
the run of negation tokens and applies the negation only for an odd count,
and `code_for_term` has no entry for `module` terms (raising
`Unknown term type`).  Missing Python bounds checks (`tokens[i]` at end of
input raises `IndexError`) surface on the same error channel. -/

/-- `code_for_term` has no entry for the `module` filter kind and raises
`Unknown term type` on it; every other kind maps to the same match
function as `filter.py`. -/
def isModuleTerm : FilterTerm → Bool
  | .moduleT _ => true
  | _ => false

mutual

def code_parse_or (env : Store) : Nat → List String →
    Except String (Pred × List String)
  | 0, _ => .error "out of fuel"
  | fuel + 1, toks => do
    let (l, rest) ← code_parse_xor env fuel toks
    code_parse_or_loop env fuel l rest
termination_by structural fuel toks => fuel

def code_parse_or_loop (env : Store) : Nat → Pred → List String →
    Except String (Pred × List String)
  | 0, _, _ => .error "out of fuel"
  | fuel + 1, l, t :: rest =>
    if strUpper t = "OR" || strUpper t = "||" then do
      let (r, rest2) ← code_parse_xor env fuel rest
      code_parse_or_loop env fuel (fun itm => l itm || r itm) rest2
    else .ok (l, t :: rest)
  | _ + 1, l, [] => .ok (l, [])
termination_by structural fuel l toks => fuel

def code_parse_xor (env : Store) : Nat → List String →
    Except String (Pred × List String)
  | 0, _ => .error "out of fuel"
  | fuel + 1, toks => do
    let (l, rest) ← code_parse_and env fuel toks
    code_parse_xor_loop env fuel l rest
termination_by structural fuel toks => fuel

def code_parse_xor_loop (env : Store) : Nat → Pred → List String →
    Except String (Pred × List String)
  | 0, _, _ => .error "out of fuel"
  | fuel + 1, l, t :: rest =>
    if strUpper t = "XOR" then do
      let (r, rest2) ← code_parse_and env fuel rest
      code_parse_xor_loop env fuel (fun itm => (l itm).xor (r itm)) rest2
    else .ok (l, t :: rest)
  | _ + 1, l, [] => .ok (l, [])
termination_by structural fuel l toks => fuel

def code_parse_and (env : Store) : Nat → List String →
    Except String (Pred × List String)
  | 0, _ => .error "out of fuel"
  | fuel + 1, toks => do
    let (l, rest) ← code_parse_not env fuel toks
    code_parse_and_loop env fuel l rest
termination_by structural fuel toks => fuel

def code_parse_and_loop (env : Store) : Nat → Pred → List String →
    Except String (Pred × List String)
  | 0, _, _ => .error "out of fuel"
  | fuel + 1, l, t :: rest =>
    if t = ")" || t = "OR" || t = "||" || t = "XOR" then .ok (l, t :: rest)
    else if strUpper t = "AND" || strUpper t = "&&" then
      code_parse_and_loop env fuel l rest
    else do
      let (r, rest2) ← code_parse_not env fuel (t :: rest)
      code_parse_and_loop env fuel (fun itm => l itm && r itm) rest2
  | _ + 1, l, [] => .ok (l, [])
termination_by structural fuel l toks => fuel

/-- `module_loader.code_parse_not`: counts the run of negation tokens and
negates the operand only when the count is odd. -/
def code_parse_not (env : Store) : Nat → List String →
    Except String (Pred × List String)
  | 0, _ => .error "out of fuel"
  | _ + 1, [] => .error "IndexError: token index out of range"
  | fuel + 1, t :: rest =>
    if isNeg t then do
      let cnt := ((t :: rest).takeWhile isNeg).length
      let (operand, rest2) ← code_parse_not env fuel ((t :: rest).dropWhile isNeg)
      if cnt % 2 = 1 then .ok ((fun itm => !(operand itm)), rest2)
      else .ok (operand, rest2)
    else code_parse_primary env fuel (t :: rest)
termination_by structural fuel toks => fuel

def code_parse_primary (env : Store) : Nat → List String →
    Except String (Pred × List String)
  | 0, _ => .error "out of fuel"
  | _ + 1, [] => .error "IndexError: token index out of range"
  | fuel + 1, t :: rest =>
    if t = "(" then do
      let (expr, rest2) ← code_parse_or env fuel rest
      match rest2 with
      | ")" :: rest3 => .ok (expr, rest3)
      | _ => .error "Expected closing parenthesis"
    else do
      let ft ← parse_filter_term env t
      if isModuleTerm ft then .error "Unknown term type: module"
      else .ok ((fun itm => term_pred env ft itm), rest)
termination_by structural fuel toks => fuel

end

/-- `module_loader.tokenize_code` performs exactly the same substitutions
as `filter.tokenize`. -/
def tokenize_code (s : String) : List String := tokenize s

/-- `module_loader.compile_filter_string` followed by the `exec` of the
generated function body in `compile_module_filter`: parse from the start
and require every token to be consumed (`Trailing tokens`). -/
def compile_filter_string (env : Store) (s : String) : Except String Pred := do
  let toks := tokenize_code s
  let (expr, rest) ← code_parse_or env (10 * (toks.length + 1)) toks
  match rest with
  | [] => .ok expr
  | _ => .error "Trailing tokens"

/-- `module_loader.compile_module_filter`: the blank string short-circuits
to the constant-true predicate before any parsing. -/
def compile_module_filter (env : Store) (filter_string : String) :
    Except String Pred :=
  if pyStrip filter_string = "" then .ok (fun _ => true)
  else compile_filter_string env filter_string

/-! ### The per-identifier cache (`cached` inside `module_loader.load_module`)

`load_module` wraps the compiled predicate in a closure over a fresh dict
keyed by `str(item.number)`.  The embedding passes the dict state
explicitly and additionally reports how many times the underlying
predicate was invoked during the call (0 or 1), the observable the spec
uses to describe memoization. -/

def cachedCall (func : Item → Bool) (cache : List (String × Bool)) (item : Item) :
    Bool × List (String × Bool) × Nat :=
  let key := item.number
  match cache.lookup key with
  | some v => (v, cache, 0)
  | none =>
    let res := func item
    (res, (key, res) :: cache, 1)

end DexTracker

namespace DexTracker

/-! ### Sample entries and evaluation helpers used by the verification -/

/-- Compile a query through `filter.py`'s tolerant pipeline
(`_safe_compile`) and apply the predicate to one entry; `none` when
compilation fails. -/
def runQuery (env : Store) (q : String) (item : Item) : Option Bool :=
  (safe_compile env q).map fun p => p item

/-- Parse a token list with `filter.py`'s expression parser and apply the
predicate to one entry; `none` when parsing fails. -/
def runTokens (env : Store) (toks : List String) (item : Item) : Option Bool :=
  (parse_expression env toks).toOption.map fun p => p item

/-- Compile a string with `module_loader`'s compiler and apply the
predicate to one entry; `none` when compilation fails. -/
def runModule (env : Store) (q : String) (item : Item) : Option Bool :=
  (compile_module_filter env q).toOption.map fun p => p item

def entryAbc : Item := { name := "abc" }
def entry9 : Item := { name := "e9", number := "9" }
def entry10 : Item := { name := "e10", number := "10" }
def entry1001 : Item := { name := "e10v", number := "10.01" }
def entry11 : Item := { name := "e11", number := "11" }
def entry1150 : Item := { name := "e11h", number := "11.5" }
def entry12 : Item := { name := "e12", number := "12" }
def entry120 : Item := { name := "e12z", number := "12.0" }
def entry1201 : Item := { name := "e12v", number := "12.01" }
def entry13 : Item := { name := "e13", number := "13" }

/-- An entry whose six canonical stats are all 100 (total 600). -/
def hexStatEntry : Item :=
  { name := "hex", number := "600",
    stats := [("atk", 100), ("def", 100), ("hp", 100),
              ("spatk", 100), ("spdef", 100), ("spd", 100)] }

/-! ### C9 -/

/-- **C9**: the `stat:total` term sums the six canonical stats and applies
the written comparison: the entry with atk=def=hp=spatk=spdef=spd=100
(total 600) satisfies `stat:total>=600` and fails `stat:total>600`. -/
theorem stat_total_inclusive_vs_strict :
    runQuery emptyStore "stat:total>=600" hexStatEntry = some true ∧
    runQuery emptyStore "stat:total>600" hexStatEntry = some false := by
  have h1 : safe_compile emptyStore "stat:total>=600" =
      some (fun itm => term_pred emptyStore (.stat "total" ">=" (mkRat 600 1)) itm) := by rfl
  have h2 : safe_compile emptyStore "stat:total>600" =
      some (fun itm => term_pred emptyStore (.stat "total" ">" (mkRat 600 1)) itm) := by rfl
  have hm : mkRat 600 1 = (600 : Rat) := by rfl
  have ha : statGet hexStatEntry "atk" = 100 := by rfl
  have hb : statGet hexStatEntry "def" = 100 := by rfl
  have hc : statGet hexStatEntry "spd" = 100 := by rfl
  have hd : statGet hexStatEntry "spatk" = 100 := by rfl
  have he : statGet hexStatEntry "spdef" = 100 := by rfl
  have hf : statGet hexStatEntry "hp" = 100 := by rfl
  constructor
  · simp only [runQuery, h1, Option.map_some, term_pred, match_stat_filter, hm,
      List.map, List.sum_cons, List.sum_nil]
    norm_num [ha, hb, hc, hd, he, hf]
    decide
  · simp only [runQuery, h2, Option.map_some, term_pred, match_stat_filter, hm,
      List.map, List.sum_cons, List.sum_nil]
    norm_num [ha, hb, hc, hd, he, hf]

/-! ### C10 -/

/-- **C10**: for every query string, `filter_item` returns `false` whenever
the item dict's key does not resolve in the store's items dictionary, so a
`false` verdict is indistinguishable from a genuine non-match. -/
theorem filter_item_false_on_unresolved_key (env : Store)
    (item_dict : List (String × String)) (q : String)
    (h : env.itemsDict ((item_dict.lookup "key").getD "") = none) :
    filter_item env item_dict q = false := by
  simp only [filter_item, h]

theorem filter_item_false_on_unresolved_key_witness :
    emptyStore.itemsDict ((([] : List (String × String)).lookup "key").getD "") = none ∧
    filter_item emptyStore [] "name:a" = false :=
  ⟨rfl, filter_item_false_on_unresolved_key emptyStore [] "name:a" rfl⟩

/-! ### C7 -/

/-- **C7**: the module predicate cache memoizes per identifier: starting
from the fresh cache, a first call computes the predicate (one underlying
invocation) and a second call with an entry bearing the same identifier
returns the identical boolean with zero further invocations. -/
theorem cached_call_memoizes (func : Item → Bool) (it it2 : Item)
    (hkey : it2.number = it.number) :
    (cachedCall func [] it).1 = func it ∧
    (cachedCall func [] it).2.2 = 1 ∧
    (cachedCall func ((cachedCall func [] it).2.1) it2).1 = (cachedCall func [] it).1 ∧
    (cachedCall func ((cachedCall func [] it).2.1) it2).2.2 = 0 := by
  unfold cachedCall
  simp [List.lookup, hkey]

theorem cached_call_memoizes_witness :
    entry1201.number = entry1201.number ∧
    (cachedCall (fun i => i.name == "e12v") [] entry1201).2.2 = 1 ∧
    (cachedCall (fun i => i.name == "e12v")
      ((cachedCall (fun i => i.name == "e12v") [] entry1201).2.1) entry1201).1 =
      (cachedCall (fun i => i.name == "e12v") [] entry1201).1 ∧
    (cachedCall (fun i => i.name == "e12v")
      ((cachedCall (fun i => i.name == "e12v") [] entry1201).2.1) entry1201).2.2 = 0 :=
  ⟨rfl, (cached_call_memoizes (fun i => i.name == "e12v") entry1201 entry1201 rfl).2.1,
    (cached_call_memoizes (fun i => i.name == "e12v") entry1201 entry1201 rfl).2.2.1,
    (cached_call_memoizes (fun i => i.name == "e12v") entry1201 entry1201 rfl).2.2.2⟩

end DexTracker

namespace DexTracker

/-! ### C5 -/

/-- **C5** counterexample: `_parse_expression` applied to the empty token
stream does not return an accept-all predicate; the parse chain reaches
`_parse_primary` with the index already at the end of input and fails. -/
theorem parse_expression_empty_errors :
    parse_expression emptyStore [] = .error "Unexpected end of expression" := by rfl

/-- **C5** (amended): on the empty token stream the expression parser
raises `Unexpected end of expression`; the accept-everything treatment of
empty input is implemented upstream: `filter_items` returns the input
unchanged for empty or all-whitespace query strings, and
`compile_module_filter` short-circuits the blank string to the
constant-true predicate before parsing. -/
theorem empty_input_accept_all_upstream (env : Store) (items : List Item) :
    parse_expression env [] = .error "Unexpected end of expression" ∧
    filter_items env items "" = items ∧
    filter_items env items "   " = items ∧
    compile_module_filter env "" = .ok (fun _ => true) := by
  refine ⟨by rfl, ?_, ?_, by rfl⟩
  · unfold filter_items
    rfl
  · unfold filter_items
    rfl

/-! ### C1 -/

/-- **C1**: on the non-module path, any compilation failure is swallowed:
`filter_items` returns the full input sequence unchanged, and the
single-item check `filter_item` returns `false` on the same unparseable
query (for every store, entry sequence and item dict). -/
theorem evaluate_tolerant_on_parse_failure (env : Store) (items : List Item)
    (item_dict : List (String × String)) (q : String)
    (hmod : strStarts (strLower (pyStrip q)) "module:" = false)
    (hfail : safe_compile env (pyStrip q) = none)
    (hfail2 : safe_compile env q = none) :
    filter_items env items q = items ∧ filter_item env item_dict q = false := by
  constructor
  · unfold filter_items
    by_cases he : pyStrip q = ""
    · simp [he]
    · simp [he, hmod, hfail]
  · unfold filter_item
    cases hit : env.itemsDict ((item_dict.lookup "key").getD "") <;> simp [hit, hfail2]

theorem evaluate_tolerant_on_parse_failure_witness :
    strStarts (strLower (pyStrip "(name:pika")) "module:" = false ∧
    safe_compile emptyStore (pyStrip "(name:pika") = none ∧
    safe_compile emptyStore "(name:pika" = none ∧
    filter_items emptyStore [entry12] "(name:pika" = [entry12] ∧
    filter_item emptyStore [("key", "12")] "(name:pika" = false := by
  refine ⟨by rfl, by rfl, by rfl, ?_, ?_⟩
  · exact (evaluate_tolerant_on_parse_failure emptyStore [entry12] [("key", "12")]
      "(name:pika" rfl rfl rfl).1
  · exact (evaluate_tolerant_on_parse_failure emptyStore [entry12] [("key", "12")]
      "(name:pika" rfl rfl rfl).2

/-! ### C8 -/

/-- A `filterMap` whose function yields `none` on every enabled pair
produces nothing when all pairs are enabled. -/
theorem filterMap_none_of_all {α β : Type} (l : List (α × Bool)) (f : α × Bool → Option β)
    (hf : ∀ p : α × Bool, p.2 = true → f p = none) (h : l.all (fun p => p.2) = true) :
    l.filterMap f = [] := by
  induction l with
  | nil => rfl
  | cons hd tl ih =>
    simp only [List.all_cons, Bool.and_eq_true] at h
    simp [List.filterMap_cons, hf hd h.1, ih h.2]

/-- A mapped-and-flattened token contribution vanishes when all pairs are
enabled. -/
theorem flatten_nil_of_all {α β : Type} (l : List (α × Bool)) (f : α × Bool → List β)
    (hf : ∀ p : α × Bool, p.2 = true → f p = []) (h : l.all (fun p => p.2) = true) :
    (l.map f).flatten = [] := by
  induction l with
  | nil => rfl
  | cons hd tl ih =>
    simp only [List.all_cons, Bool.and_eq_true] at h
    simp [hf hd h.1, ih h.2]

/-- **C8**: a module rule document with no exclusion rules (blank explicit
constraint, no disabled regions, no excluded forms, species or special
cases) derives the empty query string, and the compiled module predicate
accepts every entry. -/
theorem no_exclusions_accept_all (env : Store) (mod : ModDoc)
    (hfc : pyStrip mod.filter_constraints = "")
    (hreg : mod.regions.all (fun p => p.2) = true)
    (hform : mod.home_compatible_variants.by_form_name.all (fun p => p.2) = true)
    (hspec : mod.home_compatible_variants.by_species_name.all (fun p => p.2) = true)
    (hsph : mod.home_compatible_variants.special_handling.all (fun p => p.2) = true)
    (hbs : mod.home_incompatible_variants.battle_forms.by_species_name.all (fun p => p.2) = true)
    (hbf : mod.home_incompatible_variants.battle_forms.by_form_name.all (fun p => p.2) = true)
    (his : mod.home_incompatible_variants.item_forms.by_species_name.all (fun p => p.2) = true)
    (hif : mod.home_incompatible_variants.item_forms.by_form_name.all (fun p => p.2) = true)
    (hih : mod.home_incompatible_variants.special_handling.all (fun p => p.2) = true) :
    build_module_filter_string mod = "" ∧
    ∀ it : Item, (compile_module_filter env (build_module_filter_string mod)).toOption.map
      (fun p => p it) = some true := by
  have hmt : moduleTokens mod = [] := by
    unfold moduleTokens
    rw [hfc]
    dsimp only
    rw [filterMap_none_of_all _ _ (fun p hp => by simp [hp]) hreg]
    rw [filterMap_none_of_all _ _ (fun p hp => by simp [hp]) hform]
    rw [filterMap_none_of_all _ _ (fun p hp => by simp [hp]) hspec]
    rw [filterMap_none_of_all _ _ (fun p hp => by simp [hp]) hsph]
    rw [filterMap_none_of_all _ _ (fun p hp => by simp [hp]) hbs]
    rw [filterMap_none_of_all _ _ (fun p hp => by simp [hp]) hbf]
    rw [filterMap_none_of_all _ _ (fun p hp => by simp [hp]) his]
    rw [filterMap_none_of_all _ _ (fun p hp => by simp [hp]) hif]
    rw [flatten_nil_of_all _ _ (fun p hp => by simp [hp]) hih]
    simp [speciesGroup]
  have hbuild : build_module_filter_string mod = "" := by
    unfold build_module_filter_string
    rw [hmt]
    rfl
  refine ⟨hbuild, fun it => ?_⟩
  rw [hbuild]
  rfl

theorem no_exclusions_accept_all_witness :
    pyStrip (({} : ModDoc)).filter_constraints = "" ∧
    build_module_filter_string ({} : ModDoc) = "" ∧
    (compile_module_filter emptyStore (build_module_filter_string ({} : ModDoc))).toOption.map
      (fun p => p entry12) = some true := by
  refine ⟨by rfl, ?_, ?_⟩
  · exact (no_exclusions_accept_all emptyStore {} rfl rfl rfl rfl rfl rfl rfl rfl rfl rfl).1
  · exact (no_exclusions_accept_all emptyStore {} rfl rfl rfl rfl rfl rfl rfl rfl rfl rfl).2 entry12

end DexTracker

namespace DexTracker

/-! ### C3 -/

/-- **C3** counterexample: the claim says `#12f` matches identifier
`"12.01"`, but the compiled predicate compares the full numeric value of
the identifier (12.01) against the inclusive interval [12, 12] and
rejects it. -/
theorem number_range_f_counterexample :
    runQuery emptyStore "#12f" entry1201 = some false := by rfl

/-- **C3** (amended): the number-range term performs an inclusive interval
test on the full numeric value of the identifier, with dotted identifiers
excluded unless the term carries the `f` suffix: `#12` matches `"12"` but
not `"12.0"`, `"12.01"`, `"11"` or `"13"`; `#12f` additionally matches
`"12.0"` (value exactly 12) but still not `"12.01"`; `#10-12` matches
`"10"`, `"11"`, `"12"` and rejects `"9"`, `"13"` and all dotted
identifiers; `#10-12f` accepts dotted identifiers whose value lies in
[10, 12] (such as `"10.01"` and `"11.5"`) but not `"12.01"`. -/
theorem number_range_value_semantics :
    runQuery emptyStore "#12" entry12 = some true ∧
    runQuery emptyStore "#12" entry120 = some false ∧
    runQuery emptyStore "#12" entry1201 = some false ∧
    runQuery emptyStore "#12" entry11 = some false ∧
    runQuery emptyStore "#12" entry13 = some false ∧
    runQuery emptyStore "#12f" entry12 = some true ∧
    runQuery emptyStore "#12f" entry120 = some true ∧
    runQuery emptyStore "#12f" entry1201 = some false ∧
    runQuery emptyStore "#10-12" entry10 = some true ∧
    runQuery emptyStore "#10-12" entry11 = some true ∧
    runQuery emptyStore "#10-12" entry12 = some true ∧
    runQuery emptyStore "#10-12" entry9 = some false ∧
    runQuery emptyStore "#10-12" entry13 = some false ∧
    runQuery emptyStore "#10-12" entry1001 = some false ∧
    runQuery emptyStore "#10-12f" entry1001 = some true ∧
    runQuery emptyStore "#10-12f" entry1150 = some true ∧
    runQuery emptyStore "#10-12f" entry12 = some true ∧
    runQuery emptyStore "#10-12f" entry1201 = some false :=
  ⟨rfl, rfl, rfl, rfl, rfl, rfl, rfl, rfl, rfl, rfl, rfl, rfl, rfl, rfl, rfl, rfl, rfl, rfl⟩

/-! ### C2 -/

/-- Reduction of `Except` bind on a success, used to evaluate the parser
do-blocks. -/
theorem except_bind_ok {ε α β : Type} (v : α) (k : α → Except ε β) :
    (Except.ok v : Except ε α) >>= k = k v := rfl

/-- **C2** counterexample: in `filter.py`'s parser `NOT NOT name:a` is not
equivalent to `name:a`: on an entry named `"abc"` the double-negated query
yields `false` while the plain query yields `true`. -/
theorem double_negation_counterexample :
    runQuery emptyStore "NOT NOT name:a" entryAbc = some false ∧
    runQuery emptyStore "name:a" entryAbc = some true := ⟨rfl, rfl⟩

/-- Evaluation of the parse chain on a run of two negation tokens followed
by a plain term: `_parse_not` consumes the whole run and applies a single
negation. -/
theorem parse_or_neg_pair (env : Store) (f : Nat) (n1 n2 t : String) (ft : FilterTerm)
    (hn1 : isNeg n1 = true) (hn2 : isNeg n2 = true)
    (hft : parse_filter_term env t = .ok ft) (hpar : t ≠ "(") (hneg : isNeg t = false) :
    parse_or env (f + 7) [n1, n2, t] =
      .ok ((fun itm => !(term_pred env ft itm)), []) := by
  simp only [parse_or, parse_xor, parse_and, parse_not, parse_primary, parse_or_loop,
    parse_xor_loop, parse_and_loop, List.dropWhile_cons, hn1, hn2, hft, hpar, hneg,
    except_bind_ok, if_true, if_false, Bool.false_eq_true, ite_false, ite_true]

/-- Evaluation of the parse chain on a single negation token followed by a
plain term. -/
theorem parse_or_neg_single (env : Store) (f : Nat) (n1 t : String) (ft : FilterTerm)
    (hn1 : isNeg n1 = true)
    (hft : parse_filter_term env t = .ok ft) (hpar : t ≠ "(") (hneg : isNeg t = false) :
    parse_or env (f + 7) [n1, t] =
      .ok ((fun itm => !(term_pred env ft itm)), []) := by
  simp only [parse_or, parse_xor, parse_and, parse_not, parse_primary, parse_or_loop,
    parse_xor_loop, parse_and_loop, List.dropWhile_cons, hn1, hft, hpar, hneg,
    except_bind_ok, if_true, if_false, Bool.false_eq_true, ite_false, ite_true]

/-- **C2** (amended): `_parse_not` consumes an entire run of consecutive
negation tokens but applies exactly one negation, so for every single-term
sub-expression X the token forms `NOT NOT X`, `!! X` and `! ! X` (the two
glyph forms tokenize identically) all compile to the negation of X — they
are equivalent to `NOT X` and `! X`, not to `X`. -/
theorem negation_run_collapses (env : Store) (t : String) (ft : FilterTerm)
    (hft : parse_filter_term env t = .ok ft) (hpar : t ≠ "(") (hneg : isNeg t = false)
    (it : Item) :
    runTokens env ["NOT", "NOT", t] it = some (!(term_pred env ft it)) ∧
    runTokens env ["!", "!", t] it = some (!(term_pred env ft it)) ∧
    runTokens env ["!", t] it = some (!(term_pred env ft it)) ∧
    runTokens env ["NOT", t] it = some (!(term_pred env ft it)) := by
  have h1 : parse_or env 40 ["NOT", "NOT", t] =
      .ok ((fun itm => !(term_pred env ft itm)), []) :=
    parse_or_neg_pair env 33 "NOT" "NOT" t ft (by rfl) (by rfl) hft hpar hneg
  have h2 : parse_or env 40 ["!", "!", t] =
      .ok ((fun itm => !(term_pred env ft itm)), []) :=
    parse_or_neg_pair env 33 "!" "!" t ft (by rfl) (by rfl) hft hpar hneg
  have h3 : parse_or env 30 ["!", t] =
      .ok ((fun itm => !(term_pred env ft itm)), []) :=
    parse_or_neg_single env 23 "!" t ft (by rfl) hft hpar hneg
  have h4 : parse_or env 30 ["NOT", t] =
      .ok ((fun itm => !(term_pred env ft itm)), []) :=
    parse_or_neg_single env 23 "NOT" t ft (by rfl) hft hpar hneg
  refine ⟨?_, ?_, ?_, ?_⟩ <;>
    simp only [runTokens, parse_expression, List.length_cons, List.length_nil,
      Nat.reduceAdd, Nat.reduceMul, h1, h2, h3, h4, except_bind_ok] <;>
    rfl

theorem negation_run_collapses_witness :
    parse_filter_term emptyStore "name:a" = .ok (.name "a") ∧
    ("name:a" ≠ "(") ∧ isNeg "name:a" = false ∧
    runTokens emptyStore ["NOT", "NOT", "name:a"] entryAbc =
      some (!(term_pred emptyStore (.name "a") entryAbc)) ∧
    runTokens emptyStore ["!", "!", "name:a"] entryAbc =
      some (!(term_pred emptyStore (.name "a") entryAbc)) := by
  refine ⟨rfl, by decide, rfl, ?_, ?_⟩
  · exact (negation_run_collapses emptyStore "name:a" (.name "a") rfl (by decide) rfl entryAbc).1
  · exact (negation_run_collapses emptyStore "name:a" (.name "a") rfl (by decide) rfl
      entryAbc).2.1

end DexTracker

namespace DexTracker

/-! ### C6 -/

/-- Parse-chain evaluation of `a OR b AND c`: after `a`, the AND-level loop
stops at `OR`; the right operand of `OR` greedily consumes `b AND c`. -/
theorem parse_or_a_or_b_and_c (env : Store) (f : Nat) (a b c : String)
    (fa fb fc : FilterTerm)
    (hfa : parse_filter_term env a = .ok fa)
    (hfb : parse_filter_term env b = .ok fb)
    (hfc : parse_filter_term env c = .ok fc)
    (hap : a ≠ "(") (han : isNeg a = false)
    (hbp : b ≠ "(") (hbn : isNeg b = false)
    (hcp : c ≠ "(") (hcn : isNeg c = false)
    (hc1 : c ≠ ")") (hc2 : c ≠ "OR") (hc3 : c ≠ "||") (hc4 : c ≠ "XOR")
    (hc5 : strUpper c ≠ "AND") (hc6 : strUpper c ≠ "&&") :
    parse_or env (f + 8) [a, "OR", b, "AND", c] =
      .ok ((fun itm => term_pred env fa itm ||
        (term_pred env fb itm && term_pred env fc itm)), []) := by
  have e1 : strUpper "OR" = "OR" := by rfl
  have e2 : strUpper "AND" = "AND" := by rfl
  have d1 : ("OR" : String) ≠ ")" := by decide
  have d2 : ("OR" : String) ≠ "XOR" := by decide
  have d3 : ("AND" : String) ≠ ")" := by decide
  have d4 : ("AND" : String) ≠ "OR" := by decide
  have d5 : ("AND" : String) ≠ "||" := by decide
  have d6 : ("AND" : String) ≠ "XOR" := by decide
  simp only [parse_or, parse_xor, parse_and, parse_not, parse_primary, parse_or_loop,
    parse_xor_loop, parse_and_loop, hfa, hfb, hfc, hap, han, hbp, hbn, hcp, hcn,
    hc1, hc2, hc3, hc4, hc5, hc6, e1, e2, d1, d2, d3, d4, d5, d6,
    except_bind_ok, if_true, if_false, Bool.false_eq_true, ite_false, ite_true,
    ne_eq, decide_True, decide_False, Bool.or_self, Bool.or_true, Bool.true_or,
    Bool.false_or, Bool.or_false, eq_self_iff_true, not_false_iff, not_true]

/-- Parse-chain evaluation of the parenthesized segment `b AND c )`,
leaving the closing parenthesis unconsumed. -/
theorem parse_or_b_and_c_close (env : Store) (f : Nat) (b c : String)
    (fb fc : FilterTerm)
    (hfb : parse_filter_term env b = .ok fb)
    (hfc : parse_filter_term env c = .ok fc)
    (hbp : b ≠ "(") (hbn : isNeg b = false)
    (hcp : c ≠ "(") (hcn : isNeg c = false)
    (hc1 : c ≠ ")") (hc2 : c ≠ "OR") (hc3 : c ≠ "||") (hc4 : c ≠ "XOR")
    (hc5 : strUpper c ≠ "AND") (hc6 : strUpper c ≠ "&&") :
    parse_or env (f + 7) [b, "AND", c, ")"] =
      .ok ((fun itm => term_pred env fb itm && term_pred env fc itm), [")"]) := by
  have e2 : strUpper "AND" = "AND" := by rfl
  have e3 : strUpper ")" = ")" := by rfl
  have d3 : ("AND" : String) ≠ ")" := by decide
  have d4 : ("AND" : String) ≠ "OR" := by decide
  have d5 : ("AND" : String) ≠ "||" := by decide
  have d6 : ("AND" : String) ≠ "XOR" := by decide
  have d7 : (")" : String) ≠ "XOR" := by decide
  have d8 : (")" : String) ≠ "OR" := by decide
  have d9 : (")" : String) ≠ "||" := by decide
  simp only [parse_or, parse_xor, parse_and, parse_not, parse_primary, parse_or_loop,
    parse_xor_loop, parse_and_loop, hfb, hfc, hbp, hbn, hcp, hcn,
    hc1, hc2, hc3, hc4, hc5, hc6, e2, e3, d3, d4, d5, d6, d7, d8, d9,
    except_bind_ok, if_true, if_false, Bool.false_eq_true, ite_false, ite_true,
    ne_eq, decide_True, decide_False, Bool.or_self, Bool.or_true, Bool.true_or,
    Bool.false_or, Bool.or_false, eq_self_iff_true, not_false_iff, not_true]

/-- Parse-chain evaluation of `a OR ( <segment> )` for an abstract
parenthesized segment whose parse stops at the closing parenthesis. -/
theorem parse_or_a_or_paren_seg (env : Store) (g : Nat) (a : String) (fa : FilterTerm)
    (toks2 : List String) (p : Pred)
    (hfa : parse_filter_term env a = .ok fa)
    (hap : a ≠ "(") (han : isNeg a = false)
    (hin : parse_or env g toks2 = .ok (p, [")"])) :
    parse_or env (g + 6) (a :: "OR" :: "(" :: toks2) =
      .ok ((fun itm => term_pred env fa itm || p itm), []) := by
  have e1 : strUpper "OR" = "OR" := by rfl
  have e3 : strUpper ")" = ")" := by rfl
  have e4 : isNeg "(" = false := by rfl
  have d1 : ("OR" : String) ≠ ")" := by decide
  have d2 : ("OR" : String) ≠ "XOR" := by decide
  have d7 : (")" : String) ≠ "XOR" := by decide
  have d8 : (")" : String) ≠ "OR" := by decide
  have d9 : (")" : String) ≠ "||" := by decide
  simp only [parse_or, parse_xor, parse_and, parse_not, parse_primary, parse_or_loop,
    parse_xor_loop, parse_and_loop, hfa, hap, han, e1, e3, e4, d1, d2, d7, d8, d9, hin,
    except_bind_ok, if_true, if_false, Bool.false_eq_true, ite_false, ite_true,
    ne_eq, decide_True, decide_False, Bool.or_self, Bool.or_true, Bool.true_or,
    Bool.false_or, Bool.or_false, eq_self_iff_true, not_false_iff, not_true]

/-- Parse-chain evaluation of `a OR ( b AND c )`. -/
theorem parse_or_a_or_paren_b_and_c (env : Store) (f : Nat) (a b c : String)
    (fa fb fc : FilterTerm)
    (hfa : parse_filter_term env a = .ok fa)
    (hfb : parse_filter_term env b = .ok fb)
    (hfc : parse_filter_term env c = .ok fc)
    (hap : a ≠ "(") (han : isNeg a = false)
    (hbp : b ≠ "(") (hbn : isNeg b = false)
    (hcp : c ≠ "(") (hcn : isNeg c = false)
    (hc1 : c ≠ ")") (hc2 : c ≠ "OR") (hc3 : c ≠ "||") (hc4 : c ≠ "XOR")
    (hc5 : strUpper c ≠ "AND") (hc6 : strUpper c ≠ "&&") :
    parse_or env (f + 13) [a, "OR", "(", b, "AND", c, ")"] =
      .ok ((fun itm => term_pred env fa itm ||
        (term_pred env fb itm && term_pred env fc itm)), []) :=
  parse_or_a_or_paren_seg env (f + 7) a fa [b, "AND", c, ")"]
    (fun itm => term_pred env fb itm && term_pred env fc itm) hfa hap han
    (parse_or_b_and_c_close env f b c fb fc hfb hfc hbp hbn hcp hcn
      hc1 hc2 hc3 hc4 hc5 hc6)

/-- Parse-chain evaluation of the implicit conjunction `a b`. -/
theorem parse_or_a_b_implicit (env : Store) (f : Nat) (a b : String)
    (fa fb : FilterTerm)
    (hfa : parse_filter_term env a = .ok fa)
    (hfb : parse_filter_term env b = .ok fb)
    (hap : a ≠ "(") (han : isNeg a = false)
    (hbp : b ≠ "(") (hbn : isNeg b = false)
    (hb1 : b ≠ ")") (hb2 : b ≠ "OR") (hb3 : b ≠ "||") (hb4 : b ≠ "XOR")
    (hb5 : strUpper b ≠ "AND") (hb6 : strUpper b ≠ "&&") :
    parse_or env (f + 6) [a, b] =
      .ok ((fun itm => term_pred env fa itm && term_pred env fb itm), []) := by
  simp only [parse_or, parse_xor, parse_and, parse_not, parse_primary, parse_or_loop,
    parse_xor_loop, parse_and_loop, hfa, hfb, hap, han, hbp, hbn,
    hb1, hb2, hb3, hb4, hb5, hb6,
    except_bind_ok, if_true, if_false, Bool.false_eq_true, ite_false, ite_true,
    ne_eq, decide_True, decide_False, Bool.or_self, Bool.or_true, Bool.true_or,
    Bool.false_or, Bool.or_false, eq_self_iff_true, not_false_iff, not_true]

/-- Parse-chain evaluation of the explicit conjunction `a AND b`: the
AND-level loop silently skips the `AND` token. -/
theorem parse_or_a_and_b (env : Store) (f : Nat) (a b : String)
    (fa fb : FilterTerm)
    (hfa : parse_filter_term env a = .ok fa)
    (hfb : parse_filter_term env b = .ok fb)
    (hap : a ≠ "(") (han : isNeg a = false)
    (hbp : b ≠ "(") (hbn : isNeg b = false)
    (hb1 : b ≠ ")") (hb2 : b ≠ "OR") (hb3 : b ≠ "||") (hb4 : b ≠ "XOR")
    (hb5 : strUpper b ≠ "AND") (hb6 : strUpper b ≠ "&&") :
    parse_or env (f + 7) [a, "AND", b] =
      .ok ((fun itm => term_pred env fa itm && term_pred env fb itm), []) := by
  have e2 : strUpper "AND" = "AND" := by rfl
  have d3 : ("AND" : String) ≠ ")" := by decide
  have d4 : ("AND" : String) ≠ "OR" := by decide
  have d5 : ("AND" : String) ≠ "||" := by decide
  have d6 : ("AND" : String) ≠ "XOR" := by decide
  simp only [parse_or, parse_xor, parse_and, parse_not, parse_primary, parse_or_loop,
    parse_xor_loop, parse_and_loop, hfa, hfb, hap, han, hbp, hbn,
    hb1, hb2, hb3, hb4, hb5, hb6, e2, d3, d4, d5, d6,
    except_bind_ok, if_true, if_false, Bool.false_eq_true, ite_false, ite_true,
    ne_eq, decide_True, decide_False, Bool.or_self, Bool.or_true, Bool.true_or,
    Bool.false_or, Bool.or_false, eq_self_iff_true, not_false_iff, not_true]

/-- **C6**: operator precedence with implicit conjunction: for all plain
terms `a`, `b`, `c` and every entry, `a OR b AND c` compiles to the same
predicate as `a OR (b AND c)` — the disjunction of `a` with the
conjunction of `b` and `c` — and the adjacent pair `a b` compiles to the
same predicate as `a AND b`. -/
theorem precedence_or_and_implicit (env : Store) (a b c : String)
    (fa fb fc : FilterTerm)
    (hfa : parse_filter_term env a = .ok fa)
    (hfb : parse_filter_term env b = .ok fb)
    (hfc : parse_filter_term env c = .ok fc)
    (hap : a ≠ "(") (han : isNeg a = false)
    (hbp : b ≠ "(") (hbn : isNeg b = false)
    (hcp : c ≠ "(") (hcn : isNeg c = false)
    (hbs : b ≠ ")" ∧ b ≠ "OR" ∧ b ≠ "||" ∧ b ≠ "XOR" ∧
      strUpper b ≠ "AND" ∧ strUpper b ≠ "&&")
    (hcs : c ≠ ")" ∧ c ≠ "OR" ∧ c ≠ "||" ∧ c ≠ "XOR" ∧
      strUpper c ≠ "AND" ∧ strUpper c ≠ "&&")
    (it : Item) :
    runTokens env [a, "OR", b, "AND", c] it =
      some (term_pred env fa it || (term_pred env fb it && term_pred env fc it)) ∧
    runTokens env [a, "OR", "(", b, "AND", c, ")"] it =
      some (term_pred env fa it || (term_pred env fb it && term_pred env fc it)) ∧
    runTokens env [a, b] it = some (term_pred env fa it && term_pred env fb it) ∧
    runTokens env [a, "AND", b] it = some (term_pred env fa it && term_pred env fb it) := by
  obtain ⟨hb1, hb2, hb3, hb4, hb5, hb6⟩ := hbs
  obtain ⟨hc1, hc2, hc3, hc4, hc5, hc6⟩ := hcs
  have h1 : parse_or env 60 [a, "OR", b, "AND", c] =
      .ok ((fun itm => term_pred env fa itm ||
        (term_pred env fb itm && term_pred env fc itm)), []) :=
    parse_or_a_or_b_and_c env 52 a b c fa fb fc hfa hfb hfc hap han hbp hbn hcp hcn
      hc1 hc2 hc3 hc4 hc5 hc6
  have h2 : parse_or env 80 [a, "OR", "(", b, "AND", c, ")"] =
      .ok ((fun itm => term_pred env fa itm ||
        (term_pred env fb itm && term_pred env fc itm)), []) :=
    parse_or_a_or_paren_b_and_c env 67 a b c fa fb fc hfa hfb hfc hap han hbp hbn hcp hcn
      hc1 hc2 hc3 hc4 hc5 hc6
  have h3 : parse_or env 30 [a, b] =
      .ok ((fun itm => term_pred env fa itm && term_pred env fb itm), []) :=
    parse_or_a_b_implicit env 24 a b fa fb hfa hfb hap han hbp hbn hb1 hb2 hb3 hb4 hb5 hb6
  have h4 : parse_or env 40 [a, "AND", b] =
      .ok ((fun itm => term_pred env fa itm && term_pred env fb itm), []) :=
    parse_or_a_and_b env 33 a b fa fb hfa hfb hap han hbp hbn hb1 hb2 hb3 hb4 hb5 hb6
  refine ⟨?_, ?_, ?_, ?_⟩ <;>
    simp only [runTokens, parse_expression, List.length_cons, List.length_nil,
      Nat.reduceAdd, Nat.reduceMul, h1, h2, h3, h4, except_bind_ok] <;>
    rfl

theorem precedence_or_and_implicit_witness :
    parse_filter_term emptyStore "name:b" = .ok (.name "b") ∧
    runTokens emptyStore ["name:a", "OR", "name:b", "AND", "name:c"] entryAbc =
      runTokens emptyStore ["name:a", "OR", "(", "name:b", "AND", "name:c", ")"] entryAbc ∧
    runTokens emptyStore ["name:a", "name:b"] entryAbc =
      runTokens emptyStore ["name:a", "AND", "name:b"] entryAbc := by
  have h := precedence_or_and_implicit emptyStore "name:a" "name:b" "name:c"
    (.name "a") (.name "b") (.name "c") rfl rfl rfl
    (by decide) (by rfl) (by decide) (by rfl) (by decide) (by rfl)
    ⟨by decide, by decide, by decide, by decide, by decide, by decide⟩
    ⟨by decide, by decide, by decide, by decide, by decide, by decide⟩
    entryAbc
  exact ⟨rfl, by rw [h.1, h.2.1], by rw [h.2.2.1, h.2.2.2]⟩

end DexTracker

namespace DexTracker

/-! ### C4 -/

/-- **C4** counterexample: the two compilers disagree on repeated
negations: `filter._compile` collapses `!!` to one negation while
`module_loader`'s compiler applies even/odd parity, so on an entry named
`"abc"` the query `!! name:a` filters to `false` in one pipeline and
`true` in the other. -/
theorem module_compiler_divergence :
    runQuery emptyStore "!! name:a" entryAbc = some false ∧
    runModule emptyStore "!! name:a" entryAbc = some true := ⟨rfl, rfl⟩

theorem dropWhile_length_le {α : Type} (p : α → Bool) :
    ∀ l : List α, (l.dropWhile p).length ≤ l.length := by
  intro l
  induction l with
  | nil => simp
  | cons a l ih =>
    rw [List.dropWhile_cons]
    split
    · exact Nat.le_trans ih (Nat.le_succ _)
    · exact Nat.le_refl _

/-- Every maximal run of consecutive negation tokens in the list has odd
length (the condition under which the two negation handlers agree). -/
def oddNegRuns (l : List String) : Bool :=
  match l with
  | [] => true
  | t :: rest =>
    if h : isNeg t then
      decide (((t :: rest).takeWhile isNeg).length % 2 = 1) &&
        oddNegRuns ((t :: rest).dropWhile isNeg)
    else oddNegRuns rest
termination_by l.length
decreasing_by
  · rw [List.dropWhile_cons_of_pos h]
    exact Nat.lt_succ_of_le (dropWhile_length_le isNeg rest)
  · simp

theorem oddNegRuns_cons_of_neg {t : String} {rest : List String}
    (h : isNeg t = true) (ho : oddNegRuns (t :: rest) = true) :
    ((t :: rest).takeWhile isNeg).length % 2 = 1 ∧
      oddNegRuns ((t :: rest).dropWhile isNeg) = true := by
  rw [oddNegRuns] at ho
  simp only [h] at ho
  simpa using ho

theorem oddNegRuns_cons_of_not {t : String} {rest : List String}
    (h : isNeg t = false) (ho : oddNegRuns (t :: rest) = true) :
    oddNegRuns rest = true := by
  rw [oddNegRuns] at ho
  simp only [h] at ho
  simpa using ho

theorem dropWhile_isNeg_head :
    ∀ (l : List String) (t : String) (rest : List String),
      l.dropWhile isNeg = t :: rest → isNeg t = false := by
  intro l
  induction l with
  | nil => intro t rest h; simp [List.dropWhile] at h
  | cons a l ih =>
    intro t rest h
    rw [List.dropWhile_cons] at h
    by_cases ha : isNeg a
    · simp only [ha, if_true] at h
      exact ih t rest h
    · simp only [ha, Bool.false_eq_true, if_false] at h
      cases h
      simp [ha]

/-- A token whose uppercasing is one of the binary-operator spellings is
not a negation token. -/
theorem isNeg_false_of_op {t : String}
    (h : strUpper t = "OR" ∨ strUpper t = "||" ∨ strUpper t = "XOR" ∨
      strUpper t = "AND" ∨ strUpper t = "&&") : isNeg t = false := by
  unfold isNeg
  by_cases hb : t = "!"
  · subst hb
    rcases h with h | h | h | h | h <;> exact absurd h (by decide)
  · have hn : strUpper t ≠ "NOT" := by
      rcases h with h | h | h | h | h <;> rw [h] <;> decide
    simp [hb, hn]

end DexTracker

namespace DexTracker

theorem except_bind_error {ε α β : Type} (e : ε) (k : α → Except ε β) :
    (Except.error e : Except ε α) >>= k = Except.error e := rfl

/-- Transfer relation between results of the two compilers: every success
of the module compiler's sub-parser is matched by the corresponding
`filter.py` sub-parser with the same remaining suffix and a
pointwise-equal predicate, the remaining suffix keeping the odd-runs
invariant. -/
def Transfers (m f : Except String (Pred × List String)) : Prop :=
  ∀ q r, m = .ok (q, r) →
    ∃ p, f = .ok (p, r) ∧ oddNegRuns r = true ∧ ∀ itm, p itm = q itm

/-- The heart of the C4 analysis: on token lists whose negation runs all
have odd length, every success of a `module_loader` sub-parser transfers
to the corresponding `filter.py` sub-parser (simultaneous induction on
fuel over the eight mutually recursive functions). -/
theorem code_to_filter_transfer (env : Store) : ∀ fuel : Nat,
    (∀ toks, oddNegRuns toks = true →
      Transfers (code_parse_or env fuel toks) (parse_or env fuel toks)) ∧
    (∀ l l' toks, (∀ itm, l itm = l' itm) → oddNegRuns toks = true →
      Transfers (code_parse_or_loop env fuel l toks) (parse_or_loop env fuel l' toks)) ∧
    (∀ toks, oddNegRuns toks = true →
      Transfers (code_parse_xor env fuel toks) (parse_xor env fuel toks)) ∧
    (∀ l l' toks, (∀ itm, l itm = l' itm) → oddNegRuns toks = true →
      Transfers (code_parse_xor_loop env fuel l toks) (parse_xor_loop env fuel l' toks)) ∧
    (∀ toks, oddNegRuns toks = true →
      Transfers (code_parse_and env fuel toks) (parse_and env fuel toks)) ∧
    (∀ l l' toks, (∀ itm, l itm = l' itm) → oddNegRuns toks = true →
      Transfers (code_parse_and_loop env fuel l toks) (parse_and_loop env fuel l' toks)) ∧
    (∀ toks, oddNegRuns toks = true →
      Transfers (code_parse_not env fuel toks) (parse_not env fuel toks)) ∧
    (∀ toks, oddNegRuns toks = true →
      (∀ t rest, toks = t :: rest → isNeg t = false) →
      Transfers (code_parse_primary env fuel toks) (parse_primary env fuel toks)) := by
  intro fuel
  induction fuel with
  | zero =>
    refine ⟨?_, ?_, ?_, ?_, ?_, ?_, ?_, ?_⟩ <;>
      · intros
        intro q r hM
        first
        | exact absurd hM (by simp [code_parse_or])
        | exact absurd hM (by simp [code_parse_or_loop])
        | exact absurd hM (by simp [code_parse_xor])
        | exact absurd hM (by simp [code_parse_xor_loop])
        | exact absurd hM (by simp [code_parse_and])
        | exact absurd hM (by simp [code_parse_and_loop])
        | exact absurd hM (by simp [code_parse_not])
        | exact absurd hM (by simp [code_parse_primary])
  | succ fuel ih =>
    obtain ⟨ihOr, ihOrL, ihXor, ihXorL, ihAnd, ihAndL, ihNot, ihPrim⟩ := ih
    refine ⟨?_, ?_, ?_, ?_, ?_, ?_, ?_, ?_⟩
    · -- parse_or
      intro toks ho q r hM
      simp only [code_parse_or] at hM
      cases hx : code_parse_xor env fuel toks with
      | error e => rw [hx, except_bind_error] at hM; exact absurd hM (by simp)
      | ok lr =>
        obtain ⟨l, rest⟩ := lr
        rw [hx, except_bind_ok] at hM
        obtain ⟨p1, hp1, ho1, hag1⟩ := ihXor toks ho l rest hx
        obtain ⟨p2, hp2, ho2, hag2⟩ :=
          ihOrL l p1 rest (fun itm => (hag1 itm).symm) ho1 q r hM
        refine ⟨p2, ?_, ho2, hag2⟩
        simp only [parse_or]
        rw [hp1, except_bind_ok]
        exact hp2
    · -- parse_or_loop
      intro l l' toks hll ho q r hM
      cases toks with
      | nil =>
        simp only [code_parse_or_loop, Except.ok.injEq, Prod.mk.injEq] at hM
        obtain ⟨hq, hr⟩ := hM
        subst hq; subst hr
        exact ⟨l', by simp only [parse_or_loop], ho, fun itm => (hll itm).symm⟩
      | cons t rest =>
        simp only [code_parse_or_loop] at hM
        split at hM
        · rename_i hcond
          have hPor : strUpper t = "OR" ∨ strUpper t = "||" := by simpa using hcond
          have htn : isNeg t = false := isNeg_false_of_op (by tauto)
          have ho2 : oddNegRuns rest = true := oddNegRuns_cons_of_not htn ho
          cases hx : code_parse_xor env fuel rest with
          | error e => rw [hx, except_bind_error] at hM; exact absurd hM (by simp)
          | ok rr =>
            obtain ⟨r1, rest2⟩ := rr
            rw [hx, except_bind_ok] at hM
            obtain ⟨p1, hp1, ho3, hag1⟩ := ihXor rest ho2 r1 rest2 hx
            obtain ⟨p2, hp2, ho4, hag2⟩ :=
              ihOrL (fun itm => l itm || r1 itm) (fun itm => l' itm || p1 itm) rest2
                (fun itm => by simp only [hll itm, ← hag1 itm]) ho3 q r hM
            refine ⟨p2, ?_, ho4, hag2⟩
            simp only [parse_or_loop]
            rw [if_pos hcond, hp1, except_bind_ok]
            exact hp2
        · rename_i hcond
          simp only [Except.ok.injEq, Prod.mk.injEq] at hM
          obtain ⟨hq, hr⟩ := hM
          subst hq; subst hr
          refine ⟨l', ?_, ho, fun itm => (hll itm).symm⟩
          simp only [parse_or_loop]
          rw [if_neg hcond]
    · -- parse_xor
      intro toks ho q r hM
      simp only [code_parse_xor] at hM
      cases hx : code_parse_and env fuel toks with
      | error e => rw [hx, except_bind_error] at hM; exact absurd hM (by simp)
      | ok lr =>
        obtain ⟨l, rest⟩ := lr
        rw [hx, except_bind_ok] at hM
        obtain ⟨p1, hp1, ho1, hag1⟩ := ihAnd toks ho l rest hx
        obtain ⟨p2, hp2, ho2, hag2⟩ :=
          ihXorL l p1 rest (fun itm => (hag1 itm).symm) ho1 q r hM
        refine ⟨p2, ?_, ho2, hag2⟩
        simp only [parse_xor]
        rw [hp1, except_bind_ok]
        exact hp2
    · -- parse_xor_loop
      intro l l' toks hll ho q r hM
      cases toks with
      | nil =>
        simp only [code_parse_xor_loop, Except.ok.injEq, Prod.mk.injEq] at hM
        obtain ⟨hq, hr⟩ := hM
        subst hq; subst hr
        exact ⟨l', by simp only [parse_xor_loop], ho, fun itm => (hll itm).symm⟩
      | cons t rest =>
        simp only [code_parse_xor_loop] at hM
        split at hM
        · rename_i hcond
          have hPx : strUpper t = "XOR" := by simpa using hcond
          have htn : isNeg t = false := isNeg_false_of_op (by tauto)
          have ho2 : oddNegRuns rest = true := oddNegRuns_cons_of_not htn ho
          cases hx : code_parse_and env fuel rest with
          | error e => rw [hx, except_bind_error] at hM; exact absurd hM (by simp)
          | ok rr =>
            obtain ⟨r1, rest2⟩ := rr
            rw [hx, except_bind_ok] at hM
            obtain ⟨p1, hp1, ho3, hag1⟩ := ihAnd rest ho2 r1 rest2 hx
            obtain ⟨p2, hp2, ho4, hag2⟩ :=
              ihXorL (fun itm => (l itm).xor (r1 itm)) (fun itm => (l' itm).xor (p1 itm))
                rest2 (fun itm => by simp only [hll itm, ← hag1 itm]) ho3 q r hM
            refine ⟨p2, ?_, ho4, hag2⟩
            simp only [parse_xor_loop]
            rw [if_pos hcond, hp1, except_bind_ok]
            exact hp2
        · rename_i hcond
          simp only [Except.ok.injEq, Prod.mk.injEq] at hM
          obtain ⟨hq, hr⟩ := hM
          subst hq; subst hr
          refine ⟨l', ?_, ho, fun itm => (hll itm).symm⟩
          simp only [parse_xor_loop]
          rw [if_neg hcond]
    · -- parse_and
      intro toks ho q r hM
      simp only [code_parse_and] at hM
      cases hx : code_parse_not env fuel toks with
      | error e => rw [hx, except_bind_error] at hM; exact absurd hM (by simp)
      | ok lr =>
        obtain ⟨l, rest⟩ := lr
        rw [hx, except_bind_ok] at hM
        obtain ⟨p1, hp1, ho1, hag1⟩ := ihNot toks ho l rest hx
        obtain ⟨p2, hp2, ho2, hag2⟩ :=
          ihAndL l p1 rest (fun itm => (hag1 itm).symm) ho1 q r hM
        refine ⟨p2, ?_, ho2, hag2⟩
        simp only [parse_and]
        rw [hp1, except_bind_ok]
        exact hp2
    · -- parse_and_loop
      intro l l' toks hll ho q r hM
      cases toks with
      | nil =>
        simp only [code_parse_and_loop, Except.ok.injEq, Prod.mk.injEq] at hM
        obtain ⟨hq, hr⟩ := hM
        subst hq; subst hr
        exact ⟨l', by simp only [parse_and_loop], ho, fun itm => (hll itm).symm⟩
      | cons t rest =>
        simp only [code_parse_and_loop] at hM
        split at hM
        · rename_i hstop
          simp only [Except.ok.injEq, Prod.mk.injEq] at hM
          obtain ⟨hq, hr⟩ := hM
          subst hq; subst hr
          refine ⟨l', ?_, ho, fun itm => (hll itm).symm⟩
          simp only [parse_and_loop]
          rw [if_pos hstop]
        · rename_i hstop
          split at hM
          · rename_i hand
            have hPand : strUpper t = "AND" ∨ strUpper t = "&&" := by simpa using hand
            have htn : isNeg t = false := isNeg_false_of_op (by tauto)
            have ho2 : oddNegRuns rest = true := oddNegRuns_cons_of_not htn ho
            obtain ⟨p2, hp2, ho3, hag2⟩ := ihAndL l l' rest hll ho2 q r hM
            refine ⟨p2, ?_, ho3, hag2⟩
            simp only [parse_and_loop]
            rw [if_neg hstop, if_pos hand]
            exact hp2
          · rename_i hand
            cases hrec : code_parse_not env fuel (t :: rest) with
            | error e => rw [hrec, except_bind_error] at hM; exact absurd hM (by simp)
            | ok rr =>
              obtain ⟨r1, rest2⟩ := rr
              rw [hrec, except_bind_ok] at hM
              obtain ⟨p1, hp1, ho2, hag1⟩ := ihNot (t :: rest) ho r1 rest2 hrec
              obtain ⟨p2, hp2, ho3, hag2⟩ :=
                ihAndL (fun itm => l itm && r1 itm) (fun itm => l' itm && p1 itm) rest2
                  (fun itm => by simp only [hll itm, ← hag1 itm]) ho2 q r hM
              refine ⟨p2, ?_, ho3, hag2⟩
              simp only [parse_and_loop]
              rw [if_neg hstop, if_neg hand, hp1, except_bind_ok]
              exact hp2
    · -- parse_not
      intro toks ho q r hM
      cases toks with
      | nil => exact absurd hM (by simp [code_parse_not])
      | cons t rest =>
        simp only [code_parse_not] at hM
        split at hM
        · rename_i hneg
          obtain ⟨hcnt, hodd2⟩ := oddNegRuns_cons_of_neg hneg ho
          cases hrec : code_parse_not env fuel ((t :: rest).dropWhile isNeg) with
          | error e => rw [hrec, except_bind_error] at hM; exact absurd hM (by simp)
          | ok orr =>
            obtain ⟨operand, rest2⟩ := orr
            rw [hrec, except_bind_ok] at hM
            rw [if_pos hcnt] at hM
            simp only [Except.ok.injEq, Prod.mk.injEq] at hM
            obtain ⟨hq, hr⟩ := hM
            subst hq; subst hr
            obtain ⟨pp, hpp, hoo, hagg⟩ := ihNot _ hodd2 operand rest2 hrec
            refine ⟨fun itm => !(pp itm), ?_, hoo, fun itm => by simp only [hagg itm]⟩
            simp only [parse_not]
            rw [if_pos hneg, hpp, except_bind_ok]
        · rename_i hneg
          have htn : isNeg t = false := by simpa using hneg
          obtain ⟨p1, hp1, ho1, hag1⟩ := ihPrim (t :: rest) ho
            (fun t2 rest2 heq => by cases heq; exact htn) q r hM
          refine ⟨p1, ?_, ho1, hag1⟩
          simp only [parse_not]
          rw [if_neg hneg]
          exact hp1
    · -- parse_primary
      intro toks ho hh q r hM
      cases toks with
      | nil => exact absurd hM (by simp [code_parse_primary])
      | cons t rest =>
        have htn : isNeg t = false := hh t rest rfl
        have ho2 : oddNegRuns rest = true := oddNegRuns_cons_of_not htn ho
        simp only [code_parse_primary] at hM
        split at hM
        · rename_i hpar
          cases hrec : code_parse_or env fuel rest with
          | error e => rw [hrec, except_bind_error] at hM; exact absurd hM (by simp)
          | ok er =>
            obtain ⟨expr, rest2⟩ := er
            rw [hrec, except_bind_ok] at hM
            obtain ⟨pe, hpe, ho3, hage⟩ := ihOr rest ho2 expr rest2 hrec
            split at hM
            · rename_i rest3 heq
              dsimp only at heq
              subst heq
              simp only [Except.ok.injEq, Prod.mk.injEq] at hM
              obtain ⟨hq, hr⟩ := hM
              subst hq; subst hr
              have ho4 : oddNegRuns rest3 = true :=
                oddNegRuns_cons_of_not (by rfl) ho3
              refine ⟨pe, ?_, ho4, hage⟩
              simp only [parse_primary]
              rw [if_pos hpar, hpe, except_bind_ok]
              rfl
            · exact absurd hM (by simp)
        · rename_i hpar
          cases hft : parse_filter_term env t with
          | error e => rw [hft, except_bind_error] at hM; exact absurd hM (by simp)
          | ok ft =>
            rw [hft, except_bind_ok] at hM
            split at hM
            · exact absurd hM (by simp)
            · rename_i hmod
              simp only [Except.ok.injEq, Prod.mk.injEq] at hM
              obtain ⟨hq, hr⟩ := hM
              subst hq; subst hr
              refine ⟨fun itm => term_pred env ft itm, ?_, ho2, fun itm => rfl⟩
              simp only [parse_primary]
              rw [if_neg hpar, hft, except_bind_ok]

end DexTracker

namespace DexTracker

theorem dropWhile_nil_all {α : Type} (p : α → Bool) :
    ∀ l : List α, l.dropWhile p = [] → ∀ x ∈ l, p x = true := by
  intro l
  induction l with
  | nil => intro _ x hx; cases hx
  | cons a l ih =>
    intro h x hx
    rw [List.dropWhile_cons] at h
    by_cases ha : p a
    · rw [if_pos ha] at h
      rcases List.mem_cons.mp hx with hx | hx
      · subst hx; exact ha
      · exact ih h x hx
    · rw [if_neg ha] at h
      cases h

theorem mem_takeWhile_true {α : Type} (p : α → Bool) :
    ∀ l : List α, ∀ x ∈ l.takeWhile p, p x = true := by
  intro l
  induction l with
  | nil => intro x hx; cases hx
  | cons a l ih =>
    intro x hx
    rw [List.takeWhile_cons] at hx
    by_cases ha : p a
    · rw [if_pos ha] at hx
      rcases List.mem_cons.mp hx with hx | hx
      · subst hx; exact ha
      · exact ih x hx
    · rw [if_neg ha] at hx
      cases hx

/-- A string whose `strip` is empty consists of whitespace only. -/
theorem all_ws_of_strip_empty (s : String) (hb : pyStrip s = "") :
    ∀ c ∈ s.data, c.isWhitespace = true := by
  have h1 : ((s.data.dropWhile Char.isWhitespace).reverse.dropWhile
      Char.isWhitespace).reverse = ([] : List Char) := congrArg String.data hb
  rw [List.reverse_eq_nil_iff] at h1
  have h3 : ∀ x ∈ s.data.dropWhile Char.isWhitespace, x.isWhitespace = true := by
    intro x hx
    exact dropWhile_nil_all Char.isWhitespace _ h1 x (by simpa using hx)
  intro c hc
  rw [← List.takeWhile_append_dropWhile (p := Char.isWhitespace) (l := s.data)] at hc
  rcases List.mem_append.mp hc with h | h
  · exact mem_takeWhile_true Char.isWhitespace s.data c h
  · exact h3 c h

/-- Facts about a whitespace character used by the tokenizer model. -/
theorem ws_char_facts {c : Char} (hc : c.isWhitespace = true) :
    c.toUpper = c ∧ c ≠ 'O' ∧ c ≠ 'N' ∧ c ≠ 'X' ∧ isWordChar c = false ∧
    c ≠ '(' ∧ c ≠ ')' ∧ c ≠ '!' ∧ c ≠ '|' := by
  have hws : ((c = ' ' ∨ c = '\t') ∨ c = '\r') ∨ c = '\n' := by
    simpa [Char.isWhitespace] using hc
  rcases hws with ((h | h) | h) | h <;> subst h <;> exact ⟨by decide, by decide, by decide,
    by decide, by decide, by decide, by decide, by decide, by decide⟩

end DexTracker

namespace DexTracker

theorem padParen_ws {c : Char} (hc : c.isWhitespace = true) : padParen c = [c] := by
  obtain ⟨_, _, _, _, _, h6, h7, _, _⟩ := ws_char_facts hc
  simp [padParen, h6, h7]

theorem padBang_ws {c : Char} (hc : c.isWhitespace = true) : padBang c = [c] := by
  obtain ⟨_, _, _, _, _, _, _, h8, _⟩ := ws_char_facts hc
  simp [padBang, h8]

theorem flatten_map_id_of_ws (f : Char → List Char)
    (hf : ∀ c, c.isWhitespace = true → f c = [c]) :
    ∀ cs : List Char, (∀ c ∈ cs, c.isWhitespace = true) → (cs.map f).flatten = cs := by
  intro cs
  induction cs with
  | nil => intro _; rfl
  | cons c rest ih =>
    intro h
    have hc := hf c (h c (List.mem_cons_self c rest))
    have htl := ih fun x hx => h x (List.mem_cons_of_mem c hx)
    simp [hc, htl]

theorem opWordLen_ws {c : Char} (rest : List Char) (hc : c.isWhitespace = true) :
    opWordLen (c :: rest) = none := by
  obtain ⟨hup, hO, hN, hX, _, _, _, _, _⟩ := ws_char_facts hc
  have hne2 : ¬ (((c :: rest).take 2).map Char.toUpper = ['O', 'R']) := by
    rw [List.take_succ_cons, List.map_cons]
    intro h
    injection h with h1 _
    exact hO (hup ▸ h1)
  have hne3N : ¬ (((c :: rest).take 3).map Char.toUpper = ['N', 'O', 'T']) := by
    rw [List.take_succ_cons, List.map_cons]
    intro h
    injection h with h1 _
    exact hN (hup ▸ h1)
  have hne3X : ¬ (((c :: rest).take 3).map Char.toUpper = ['X', 'O', 'R']) := by
    rw [List.take_succ_cons, List.map_cons]
    intro h
    injection h with h1 _
    exact hX (hup ▸ h1)
  unfold opWordLen
  split
  · rename_i h
    rw [Bool.and_eq_true, decide_eq_true_eq] at h
    exact absurd h.1 hne2
  · split
    · rename_i h
      rw [Bool.and_eq_true, decide_eq_true_eq] at h
      exact absurd h.1 hne3N
    · split
      · rename_i h
        rw [Bool.and_eq_true, decide_eq_true_eq] at h
        exact absurd h.1 hne3X
      · rfl

theorem spaceOps_cons_none (prevW : Bool) (c : Char) (rest : List Char)
    (hop : opWordLen (c :: rest) = none) :
    spaceOps prevW (c :: rest) = c :: spaceOps (isWordChar c) rest := by
  cases prevW
  · cases rest with
    | nil => simp only [spaceOps, hop]
    | cons c2 rest2 =>
      cases rest2 with
      | nil => simp only [spaceOps, hop]
      | cons c3 rest3 => simp only [spaceOps, hop]
  · simp only [spaceOps]

theorem spaceOps_ws : ∀ cs : List Char, (∀ c ∈ cs, c.isWhitespace = true) →
    ∀ prevW, spaceOps prevW cs = cs := by
  intro cs
  induction cs with
  | nil => intro _ prevW; cases prevW <;> rfl
  | cons c rest ih =>
    intro h prevW
    have hc := h c (List.mem_cons_self c rest)
    have hrest : ∀ x ∈ rest, x.isWhitespace = true :=
      fun x hx => h x (List.mem_cons_of_mem c hx)
    obtain ⟨_, _, _, _, h5, _, _, _, _⟩ := ws_char_facts hc
    rw [spaceOps_cons_none prevW c rest (opWordLen_ws rest hc), h5, ih hrest false]

theorem padPipes_cons_not_pipe {c : Char} (rest : List Char) (hc : c ≠ '|') :
    padPipes (c :: rest) = c :: padPipes rest := by
  rw [padPipes.eq_def]
  split
  · rename_i heq
    injection heq with h1 _
    exact absurd h1 hc
  · rename_i c3 rest3 heq
    injection heq with h1 h2
    subst h1; subst h2
    rfl
  · rename_i heq
    cases heq

theorem padPipes_ws : ∀ cs : List Char, (∀ c ∈ cs, c.isWhitespace = true) →
    padPipes cs = cs := by
  intro cs
  induction cs with
  | nil => intro _; rfl
  | cons c rest ih =>
    intro h
    have hc := h c (List.mem_cons_self c rest)
    obtain ⟨_, _, _, _, _, _, _, _, h9⟩ := ws_char_facts hc
    rw [padPipes_cons_not_pipe rest h9, ih fun x hx => h x (List.mem_cons_of_mem c hx)]

theorem splitWsAux_ws : ∀ cs : List Char, (∀ c ∈ cs, c.isWhitespace = true) →
    splitWsAux [] cs = [] := by
  intro cs
  induction cs with
  | nil => intro _; rfl
  | cons c rest ih =>
    intro h
    have hc := h c (List.mem_cons_self c rest)
    unfold splitWsAux
    rw [if_pos hc]
    simp only [List.isEmpty_nil, if_true]
    exact ih fun x hx => h x (List.mem_cons_of_mem c hx)

/-- A query whose `strip` is blank tokenizes to the empty token list. -/
theorem tokenize_blank (s : String) (hb : pyStrip s = "") : tokenize s = [] := by
  have hws := all_ws_of_strip_empty s hb
  show splitWs (padPipes (spaceOps false (((s.data.map padParen).flatten.map padBang).flatten))) = []
  rw [flatten_map_id_of_ws padParen (fun c hc => padParen_ws hc) s.data hws,
    flatten_map_id_of_ws padBang (fun c hc => padBang_ws hc) s.data hws,
    spaceOps_ws s.data hws false,
    padPipes_ws s.data hws]
  exact splitWsAux_ws s.data hws

end DexTracker

namespace DexTracker

theorem oddNegRuns_no_negs : ∀ toks : List String,
    (∀ t ∈ toks, isNeg t = false) → oddNegRuns toks = true := by
  intro toks
  induction toks with
  | nil => intro _; rw [oddNegRuns]
  | cons t rest ih =>
    intro h
    rw [oddNegRuns]
    simp only [h t (List.mem_cons_self t rest)]
    exact ih fun x hx => h x (List.mem_cons_of_mem t hx)

/-- Core agreement: when both compilers succeed on a non-blank string whose
token list has only odd-length negation runs, the predicates agree. -/
theorem compile_agrees_core (env : Store) (s : String) (q p : Pred)
    (ho : oddNegRuns (tokenize s) = true)
    (hM : compile_filter_string env s = .ok q)
    (hF : compileQ env s = .ok p) :
    ∀ itm, p itm = q itm := by
  simp only [compile_filter_string, tokenize_code] at hM
  simp only [compileQ, parse_expression] at hF
  cases hco : code_parse_or env (10 * ((tokenize s).length + 1)) (tokenize s) with
  | error e =>
    rw [hco, except_bind_error] at hM
    exact absurd hM (by simp)
  | ok pr =>
    obtain ⟨q0, r⟩ := pr
    rw [hco, except_bind_ok] at hM
    obtain ⟨p0, hfo, _, hag⟩ :=
      (code_to_filter_transfer env (10 * ((tokenize s).length + 1))).1 (tokenize s) ho q0 r hco
    rw [hfo, except_bind_ok] at hF
    cases r with
    | nil =>
      dsimp only at hM hF
      injection hM with hq
      injection hF with hp
      intro itm
      rw [← hq, ← hp]
      exact hag itm
    | cons t ts =>
      dsimp only at hM
      exact absurd hM (by simp)

end DexTracker

namespace DexTracker

/-- **C4** (corrected): the two compilers do not agree on all commonly
accepted strings (see the counterexample with a repeated negation), but they
do agree whenever every maximal run of negation tokens in the tokenized
query has odd length: for every store, every query string accepted by both
`compile_module_filter` and `filter._compile`, and every entry, the two
compiled predicates return the same boolean. -/
theorem module_filter_compiler_agrees (env : Store) (s : String) (itm : Item)
    (ho : oddNegRuns (tokenize s) = true)
    (hM : ∃ q, compile_module_filter env s = Except.ok q)
    (hF : ∃ p, compileQ env s = Except.ok p) :
    runQuery env s itm = runModule env s itm := by
  obtain ⟨q, hM⟩ := hM
  obtain ⟨p, hF⟩ := hF
  by_cases hb : pyStrip s = ""
  · have ht : tokenize s = [] := tokenize_blank s hb
    rw [compileQ, ht] at hF
    have he : parse_expression env ([] : List String) =
        .error "Unexpected end of expression" := rfl
    rw [he] at hF
    cases hF
  · rw [compile_module_filter, if_neg hb] at hM
    have hag := compile_agrees_core env s q p ho hM hF
    simp only [runQuery, runModule, safe_compile, compile_module_filter, if_neg hb,
      hM, hF, Except.toOption, Option.map]
    exact congrArg some (hag itm)

end DexTracker

namespace DexTracker

/-- **C4** witness: a concrete negation-free query accepted by both
compilers, on which the two predicates agree for a concrete entry. -/
theorem module_filter_compiler_agrees_witness :
    oddNegRuns (tokenize "name:a OR #12") = true ∧
    runQuery emptyStore "name:a OR #12" entryAbc =
      runModule emptyStore "name:a OR #12" entryAbc := by
  have ho : oddNegRuns (tokenize "name:a OR #12") = true := by
    apply oddNegRuns_no_negs
    decide
  exact ⟨ho, module_filter_compiler_agrees emptyStore "name:a OR #12" entryAbc ho
    ⟨_, rfl⟩ ⟨_, rfl⟩⟩

end DexTracker
